import Mathlib

/-!
# liquid-usrp `cr.cc`: packet-manager header codec, receive callback and ARQ loop

A shallow embedding of the link-layer part of `src/cr.cc`.

* `unsigned int` values are natural numbers; where the source increments a
  counter the wrap-around of the 32-bit type is written out as `% 2 ^ 32`.
* `unsigned char` buffers are lists of natural numbers below 256.  A read or
  write through a pointer is defined only inside the buffer, so `load`,
  `store` and `memmove` return `none` when the index leaves the buffer.
* The output of `printf` and the `pthread_cond_signal` calls are collected in
  a list of `Event`s, in program order.
* What the other threads do while the packet manager is blocked in a wait is
  an input of the model (`Wait`): the frames the receive thread hands to
  `callback` before the wait returns, and the return code of the wait.
* Which mutex a thread holds when it touches a field is a property of its own
  program order.  The section on locking lists, for each operation, its mutex
  operations and field accesses in that order.
-/

namespace CR

/-! ## Constants -/

def OPMODE_MASTER : Int := 0
def OPMODE_SLAVE : Int := 1

def PACKET_TYPE_DATA : Nat := 0
def PACKET_TYPE_ACK : Nat := 1
def PACKET_TYPE_CONTROL : Nat := 2

/-! ## Data model -/

/-- The `pm_header` struct: six `unsigned int` fields. -/
structure pm_header where
  src0 : Nat
  src1 : Nat
  dst0 : Nat
  dst1 : Nat
  pid : Nat
  type : Nat
  deriving DecidableEq, Repr

/-! ## Byte buffers -/

/-- The read `_header[i]`: defined only inside the buffer. -/
def load (buf : List Nat) (i : Nat) : Option Nat :=
  buf[i]?

/-- The write `_header[i] = v` into an `unsigned char` buffer: the value is
converted to `unsigned char`, and the write is defined only inside the buffer. -/
def store (buf : List Nat) (i v : Nat) : Option (List Nat) :=
  if i < buf.length then some (buf.set i (v % 256)) else none

/-- Every element of the buffer is an `unsigned char` value. -/
def isBytes (buf : List Nat) : Prop :=
  ∀ x ∈ buf, x < 256

instance (buf : List Nat) : Decidable (isBytes buf) := by
  unfold isBytes; infer_instance

/-! ## Header codec -/

/-- The function `pm_assemble_header(_h, _header)`: the buffer after the eleven writes. -/
def pm_assemble_header (_h : pm_header) (_header : List Nat) : Option (List Nat) := do
  let b ← store _header 0 ((_h.src0 >>> 8) &&& 0x00ff)
  let b ← store b 1 (_h.src0 &&& 0x00ff)
  let b ← store b 2 ((_h.src1 >>> 8) &&& 0x00ff)
  let b ← store b 3 (_h.src1 &&& 0x00ff)
  let b ← store b 4 ((_h.dst0 >>> 8) &&& 0x00ff)
  let b ← store b 5 (_h.dst0 &&& 0x00ff)
  let b ← store b 6 ((_h.dst1 >>> 8) &&& 0x00ff)
  let b ← store b 7 (_h.dst1 &&& 0x00ff)
  let b ← store b 8 ((_h.pid >>> 8) &&& 0x00ff)
  let b ← store b 9 (_h.pid &&& 0x00ff)
  store b 10 (_h.type &&& 0x00ff)

/-- The function `pm_dissemble_header(_header, _h)`: the header written to `*_h`.
All six fields are assigned, so the previous contents of `*_h` play no role. -/
def pm_dissemble_header (_header : List Nat) : Option pm_header := do
  let b0 ← load _header 0
  let b1 ← load _header 1
  let b2 ← load _header 2
  let b3 ← load _header 3
  let b4 ← load _header 4
  let b5 ← load _header 5
  let b6 ← load _header 6
  let b7 ← load _header 7
  let b8 ← load _header 8
  let b9 ← load _header 9
  let b10 ← load _header 10
  some { src0 := (b0 <<< 8) ||| b1
         src1 := (b2 <<< 8) ||| b3
         dst0 := (b4 <<< 8) ||| b5
         dst1 := (b6 <<< 8) ||| b7
         pid := (b8 <<< 8) ||| b9
         type := b10 }

/-! ## Shared state -/

/-- The `crdata` struct, without the radio parameters (`fc`, `fd_tx`, `fd_rx`,
`tx_gain`, `ack_timeout`), the front-end objects and the pthread objects, none
of which is read or written by the functions embedded here.  The two condition
variables appear as `Event`s where they are signalled. -/
structure crdata where
  node_id : Nat
  mode : Int
  num_rx_packets : Nat
  num_valid_rx_packets : Nat
  radio_active : Bool
  tx_header : List Nat
  tx_payload : List Nat
  ack : Bool
  tx_pm_header : pm_header
  rx_header : List Nat
  rx_payload : List Nat
  rx_header_valid : Bool
  rx_payload_valid : Bool
  rx_pm_header : pm_header
  deriving DecidableEq, Repr

/-- The array sizes of `crdata`: `tx_header[24]`, `tx_payload[64]`,
`rx_header[24]`, `rx_payload[64]`, all of `unsigned char`. -/
def crdata.wf (p : crdata) : Prop :=
  (p.tx_header.length = 24 ∧ isBytes p.tx_header) ∧
  (p.tx_payload.length = 64 ∧ isBytes p.tx_payload) ∧
  (p.rx_header.length = 24 ∧ isBytes p.rx_header) ∧
  (p.rx_payload.length = 64 ∧ isBytes p.rx_payload)

instance (p : crdata) : Decidable p.wf := by
  unfold crdata.wf; infer_instance

/-- What the program prints and which condition it signals, in program order. -/
inductive Event where
  /-- `printf("********* callback invoked, %4u/%4u ", ...)` -/
  | callback_invoked (valid total : Nat)
  /-- `printf("HEADER CRC FAIL\n")` -/
  | header_crc_fail
  /-- `printf("PAYLOAD CRC FAIL\n")` -/
  | payload_crc_fail
  /-- `printf("packet id: %u\n", ...)` in `callback` -/
  | callback_packet_id (pid : Nat)
  /-- `pthread_cond_signal(&(p->rx_data_ready))` -/
  | rx_data_ready
  /-- `pthread_cond_signal(&(p->tx_data_ready))`, with the outbound slot
  (`tx_header`, `tx_payload`) as it stands when the signal is raised -/
  | tx_data_ready (header payload : List Nat)
  /-- `printf("transmitting packet %u (attempt %u)\n", ...)` -/
  | transmitting_packet (pid attempt : Nat)
  /-- `printf("pm: received packet\n")` -/
  | pm_received_packet
  /-- `printf("pm: packet id: %u\n", ...)` -/
  | pm_packet_id (pid : Nat)
  /-- `printf("pm: transmitting ack on packet %u\n", ...)` -/
  | transmitting_ack (pid : Nat)
  /-- `printf("pm: received rx_data_ready signal, rc = %d\n", ...)` -/
  | received_signal (rc : Int)
  /-- `printf("  ==> timeout\n")` -/
  | timeout
  /-- `printf("  ==> wrong packet type (expecing ACK)\n")` -/
  | wrong_packet_type
  /-- `printf("  ==> wrong packet id (received %u, expected %u)\n", ...)` -/
  | wrong_packet_id (received expected : Nat)
  /-- `printf("pm: received ack on packet %u\n", ...)` -/
  | received_ack (pid : Nat)
  deriving DecidableEq, Repr

/-- The call `memmove(dst, src, n)`: the first `n` bytes of `dst` are replaced
by the first `n` bytes of `src`; defined when both buffers hold `n` bytes. -/
def memmove (dst src : List Nat) (n : Nat) : Option (List Nat) :=
  if n ≤ src.length ∧ n ≤ dst.length then some (src.take n ++ dst.drop n) else none

/-! ## Receive callback -/

/-- The function `callback`, invoked by the frame synchronizer for a demodulated
frame.  It returns `0` on every path; the result here is the state it leaves
and what it printed and signalled. -/
def callback (_header : List Nat) (_header_valid : Int)
    (_payload : List Nat) (_payload_valid : Int) (p : crdata) :
    Option (crdata × List Event) :=
  let p := { p with num_rx_packets := (p.num_rx_packets + 1) % 2 ^ 32 }
  let p := if _header_valid ≠ 0 ∧ _payload_valid ≠ 0 then
      { p with num_valid_rx_packets := (p.num_valid_rx_packets + 1) % 2 ^ 32 }
    else p
  let out := [Event.callback_invoked p.num_valid_rx_packets p.num_rx_packets]
  if _header_valid = 0 then
    some (p, out ++ [Event.header_crc_fail])
  else if _payload_valid = 0 then
    some (p, out ++ [Event.payload_crc_fail])
  else do
    let rx_header ← memmove p.rx_header _header 24
    let p := { p with rx_header := rx_header }
    let rx_payload ← memmove p.rx_payload _payload 64
    let p := { p with rx_payload := rx_payload }
    let p := { p with rx_header_valid := decide (_header_valid ≠ 0) }
    let p := { p with rx_payload_valid := decide (_payload_valid ≠ 0) }
    let h ← pm_dissemble_header p.rx_header
    let p := { p with rx_pm_header := h }
    some (p, out ++ [Event.callback_packet_id p.rx_pm_header.pid, Event.rx_data_ready])

/-- A demodulated frame as the frame synchronizer hands it to `callback`. -/
structure RxFrame where
  header : List Nat
  header_valid : Int
  payload : List Nat
  payload_valid : Int
  deriving DecidableEq, Repr

/-- The frame carries a header of at least 24 and a payload of at least 64
`unsigned char` values, the sizes `callback` copies. -/
def RxFrame.wf (f : RxFrame) : Prop :=
  (24 ≤ f.header.length ∧ isBytes f.header) ∧ (64 ≤ f.payload.length ∧ isBytes f.payload)

instance (f : RxFrame) : Decidable f.wf := by
  unfold RxFrame.wf; infer_instance

/-- The receive thread runs `callback` on each frame in turn. -/
def receive : List RxFrame → crdata → Option (crdata × List Event)
  | [], p => some (p, [])
  | f :: fs, p => do
    let (p, out1) ← callback f.header f.header_valid f.payload f.payload_valid p
    let (p, out2) ← receive fs p
    some (p, out1 ++ out2)

/-- What happens while the packet manager is blocked on `rx_data_ready`: the
frames the receive thread passes to `callback` before the wait returns, and
the return code of the wait (`0` when signalled, an error number such as
`ETIMEDOUT` otherwise; `pthread_cond_wait` in the slave ignores it). -/
structure Wait where
  frames : List RxFrame
  rc : Int

/-- The environment of one blocking step of the packet manager: the values the
successive `rand()` calls return, and the wait. -/
structure Turn where
  rand : Nat → Nat
  wait : Wait

/-! ## Packet manager -/

/-- The loop `for (i=0; i<64; i++) p->tx_payload[i] = rand()%256;` -/
def fill_payload (rand : Nat → Nat) (tx_payload : List Nat) : Option (List Nat) :=
  (List.range 64).foldlM (fun b i => store b i (rand i % 256)) tx_payload

/-- The function `pm_send_data_packet(p, pid)`. -/
def pm_send_data_packet (p : crdata) (pid : Nat) (rand : Nat → Nat) :
    Option (crdata × List Event) := do
  let p := { p with tx_pm_header := { p.tx_pm_header with pid := pid } }
  let p := { p with tx_pm_header := { p.tx_pm_header with type := PACKET_TYPE_DATA } }
  let tx_header ← pm_assemble_header p.tx_pm_header p.tx_header
  let p := { p with tx_header := tx_header }
  let tx_payload ← fill_payload rand p.tx_payload
  let p := { p with tx_payload := tx_payload }
  some (p, [Event.tx_data_ready p.tx_header p.tx_payload])

/-- The function `pm_send_ack_packet(p, pid)`. -/
def pm_send_ack_packet (p : crdata) (pid : Nat) : Option (crdata × List Event) := do
  let out := [Event.transmitting_ack pid]
  let p := { p with tx_pm_header := { p.tx_pm_header with pid := pid } }
  let p := { p with tx_pm_header := { p.tx_pm_header with type := PACKET_TYPE_ACK } }
  let tx_header ← pm_assemble_header p.tx_pm_header p.tx_header
  let p := { p with tx_header := tx_header }
  some (p, out ++ [Event.tx_data_ready p.tx_header p.tx_payload])

/-- The function `pm_wait_for_ack_packet(p, pid)`: the return value, the state
and the output.  The timed wait lets the receive thread run (`w.frames`) and
returns `w.rc`. -/
def pm_wait_for_ack_packet (p : crdata) (pid : Nat) (w : Wait) :
    Option (Bool × crdata × List Event) := do
  let (p, out) ← receive w.frames p
  let rc := w.rc
  let out := out ++ [Event.received_signal rc]
  if rc ≠ 0 then
    some (false, p, out ++ [Event.timeout])
  else if p.rx_pm_header.type ≠ PACKET_TYPE_ACK then
    some (false, p, out ++ [Event.wrong_packet_type])
  else if p.rx_pm_header.pid ≠ pid then
    some (false, p, out ++ [Event.wrong_packet_id p.rx_pm_header.pid pid])
  else
    some (true, p, out ++ [Event.received_ack pid])

/-- The local variables `pid` and `tx_attempt` of `pm_process`. -/
structure pm_locals where
  pid : Nat
  tx_attempt : Nat
  deriving DecidableEq, Repr

/-- One pass through the body of the `do { ... } while` loop of the master:
print, send, wait, record the outcome in `p->ack`, count the attempt. -/
def master_attempt (p : crdata) (l : pm_locals) (t : Turn) :
    Option (crdata × pm_locals × List Event) := do
  let out0 := [Event.transmitting_packet l.pid l.tx_attempt]
  let (p, out1) ← pm_send_data_packet p l.pid t.rand
  let (ack, p, out2) ← pm_wait_for_ack_packet p l.pid t.wait
  let p := { p with ack := ack }
  let l := { l with tx_attempt := (l.tx_attempt + 1) % 2 ^ 32 }
  some (p, l, out0 ++ out1 ++ out2)

/-- The loop `do { ... } while (!p->ack && p->radio_active);` of the master.
Each attempt consumes one `Turn`; the loop is blocked (`none`) when the
environment supplies no further turn. -/
def master_loop : List Turn → crdata → pm_locals →
    Option (crdata × pm_locals × List Event × List Turn)
  | [], _, _ => none
  | t :: ts, p, l => do
    let (p, l, out) ← master_attempt p l t
    if !p.ack && p.radio_active then
      let (p, l, out2, ts) ← master_loop ts p l
      some (p, l, out ++ out2, ts)
    else
      some (p, l, out, ts)

/-- One pass through the body of `while (p->radio_active) { switch (p->mode) ... }`
in `pm_process`.  The `default` branch prints an error and exits the process:
no state follows it. -/
def pm_process_body (p : crdata) (l : pm_locals) (ts : List Turn) :
    Option (crdata × pm_locals × List Event × List Turn) :=
  if p.mode = OPMODE_MASTER then
    let l := { l with pid := (l.pid + 1) % 256 }
    let p := { p with ack := false }
    let l := { l with tx_attempt := 0 }
    master_loop ts p l
  else if p.mode = OPMODE_SLAVE then
    match ts with
    | [] => none
    | t :: ts => do
      let (p, out1) ← receive t.wait.frames p
      let out1 := out1 ++ [Event.pm_received_packet]
      let h ← pm_dissemble_header p.rx_header
      let p := { p with rx_pm_header := h }
      let out1 := out1 ++ [Event.pm_packet_id p.rx_pm_header.pid]
      let (p, out2) ← pm_send_ack_packet p p.rx_pm_header.pid
      some (p, l, out1 ++ out2, ts)
  else
    none

/-- The first `passes` passes of the loop of `pm_process`; the loop ends
earlier when `radio_active` is found false. -/
def pm_process : Nat → crdata → pm_locals → List Turn →
    Option (crdata × pm_locals × List Event × List Turn)
  | 0, p, l, ts => some (p, l, [], ts)
  | passes + 1, p, l, ts =>
    if p.radio_active then do
      let (p, l, out1, ts) ← pm_process_body p l ts
      let (p, l, out2, ts) ← pm_process passes p l ts
      some (p, l, out1 ++ out2, ts)
    else
      some (p, l, [], ts)

/-! ## Reading the output -/

/-- The outbound slots handed to the transmit thread, in order. -/
def sent_packets : List Event → List (List Nat × List Nat)
  | [] => []
  | Event.tx_data_ready h pl :: out => (h, pl) :: sent_packets out
  | _ :: out => sent_packets out

/-- The outcomes `p->ack` of consecutive master attempts for the packet id in
`l`, each attempt starting in the state the previous one left. -/
def attempt_acks : List Turn → crdata → pm_locals → Option (List Bool)
  | [], _, _ => some []
  | t :: ts, p, l => do
    let (p, l, _) ← master_attempt p l t
    let acks ← attempt_acks ts p l
    some (p.ack :: acks)

/-- The eleven bytes that `pm_assemble_header` writes for a header:
high byte then low byte of each 16-bit field, then the low byte of `type`. -/
def header_image (h : pm_header) : List Nat :=
  [h.src0 / 256 % 256, h.src0 % 256, h.src1 / 256 % 256, h.src1 % 256,
   h.dst0 / 256 % 256, h.dst0 % 256, h.dst1 / 256 % 256, h.dst1 % 256,
   h.pid / 256 % 256, h.pid % 256, h.type % 256]

/-- The fields the receive thread does not write are the same in `p` and `q`. -/
def same_outbound (p q : crdata) : Prop :=
  q.node_id = p.node_id ∧ q.mode = p.mode ∧ q.radio_active = p.radio_active ∧
  q.tx_header = p.tx_header ∧ q.tx_payload = p.tx_payload ∧ q.ack = p.ack ∧
  q.tx_pm_header = p.tx_pm_header

/-- Both CRC flags of the frame are non-zero, the test `_header_valid && _payload_valid`. -/
def RxFrame.fully_valid (f : RxFrame) : Bool :=
  decide (f.header_valid ≠ 0 ∧ f.payload_valid ≠ 0)

/-! ## Concrete states and frames used in the examples -/

/-- A freshly started node: counters as `main` sets them, zeroed buffers. -/
def idle_state (mode : Int) : crdata :=
  { node_id := 0, mode := mode, num_rx_packets := 0, num_valid_rx_packets := 0,
    radio_active := true,
    tx_header := List.replicate 24 0, tx_payload := List.replicate 64 0, ack := false,
    tx_pm_header := ⟨0, 0, 0, 0, 0, 0⟩,
    rx_header := List.replicate 24 0, rx_payload := List.replicate 64 0,
    rx_header_valid := false, rx_payload_valid := false,
    rx_pm_header := ⟨0, 0, 0, 0, 0, 0⟩ }

/-- A frame header with zero addresses, the given packet id and type. -/
def header_bytes (pid type : Nat) : List Nat :=
  [0, 0, 0, 0, 0, 0, 0, 0, pid / 256 % 256, pid % 256, type % 256] ++ List.replicate 13 0

/-- A frame that passed both CRCs. -/
def valid_frame (pid type : Nat) : RxFrame :=
  { header := header_bytes pid type, header_valid := 1,
    payload := List.replicate 64 0, payload_valid := 1 }

/-- A wait that times out with nothing received (`ETIMEDOUT` is 110). -/
def timed_out : Turn :=
  { rand := fun _ => 0, wait := { frames := [], rc := 110 } }

/-- A wait that is signalled after one valid frame. -/
def delivered (f : RxFrame) : Turn :=
  { rand := fun i => i, wait := { frames := [f], rc := 0 } }

/-! ## Locking

The same operations once more, this time as the sequence of mutex operations
and `crdata` accesses each one performs, in program order. -/

/-- The two mutexes of `crdata`. -/
inductive Mutex where
  | tx_data_mutex
  | rx_data_mutex
  deriving DecidableEq, Repr

/-- The fields of `crdata` that the operations read or write. -/
inductive Field where
  | mode
  | tx_gain
  | num_rx_packets
  | num_valid_rx_packets
  | radio_active
  | tx_header
  | tx_payload
  | ack
  | tx_pm_header
  | rx_header
  | rx_payload
  | rx_header_valid
  | rx_payload_valid
  | rx_pm_header
  deriving DecidableEq, Repr

/-- One step of an operation that matters for the locking discipline. -/
inductive Action where
  /-- `pthread_mutex_lock` -/
  | lock (m : Mutex)
  /-- `pthread_mutex_unlock` -/
  | unlock (m : Mutex)
  /-- `pthread_cond_wait` or `pthread_cond_timedwait` on the mutex: the mutex
  is released while the thread is blocked and held again when the call returns -/
  | cond_wait (m : Mutex)
  /-- a read of the field -/
  | read (f : Field)
  /-- a write of the field -/
  | write (f : Field)
  /-- the blocking hardware write `p->utx->write(...)` -/
  | hw_write
  deriving DecidableEq, Repr

/-- The accesses of `pm_dissemble_header(src, &dst)`: five fields made of two
bytes each, then `type` from one byte. -/
def pm_dissemble_header_actions (src dst : Field) : List Action :=
  [Action.read src, Action.read src, Action.write dst,
   Action.read src, Action.read src, Action.write dst,
   Action.read src, Action.read src, Action.write dst,
   Action.read src, Action.read src, Action.write dst,
   Action.read src, Action.read src, Action.write dst,
   Action.read src, Action.write dst]

/-- The accesses of `pm_assemble_header(h, dst)`: the header is passed by
value, then eleven bytes are written. -/
def pm_assemble_header_actions (h dst : Field) : List Action :=
  Action.read h :: List.replicate 11 (Action.write dst)

/-- The accesses of `callback`. -/
def callback_actions (_header_valid _payload_valid : Int) : List Action :=
  [Action.read Field.num_rx_packets, Action.write Field.num_rx_packets]
  ++ (if _header_valid ≠ 0 ∧ _payload_valid ≠ 0 then
        [Action.read Field.num_valid_rx_packets, Action.write Field.num_valid_rx_packets]
      else [])
  ++ [Action.read Field.num_valid_rx_packets, Action.read Field.num_rx_packets]
  ++ (if _header_valid = 0 then []
      else if _payload_valid = 0 then []
      else
        [Action.lock Mutex.rx_data_mutex,
         Action.write Field.rx_header, Action.write Field.rx_payload,
         Action.write Field.rx_header_valid, Action.write Field.rx_payload_valid]
        ++ pm_dissemble_header_actions Field.rx_header Field.rx_pm_header
        ++ [Action.read Field.rx_pm_header, Action.unlock Mutex.rx_data_mutex])

/-- The accesses of one pass of the loop `while (p->radio_active)` of
`tx_process`: the loop test, the wait, `framegen64_execute` on the outbound
slot, the 4096 rounds that scale two samples by `p->tx_gain`, the write. -/
def tx_process_actions : List Action :=
  [Action.read Field.radio_active,
   Action.lock Mutex.tx_data_mutex, Action.cond_wait Mutex.tx_data_mutex,
   Action.read Field.tx_header, Action.read Field.tx_payload,
   Action.unlock Mutex.tx_data_mutex]
  ++ List.replicate (2 * 4096) (Action.read Field.tx_gain)
  ++ [Action.hw_write]

/-- The accesses of `pm_send_data_packet`. -/
def pm_send_data_packet_actions : List Action :=
  [Action.lock Mutex.tx_data_mutex,
   Action.write Field.tx_pm_header, Action.write Field.tx_pm_header]
  ++ pm_assemble_header_actions Field.tx_pm_header Field.tx_header
  ++ List.replicate 64 (Action.write Field.tx_payload)
  ++ [Action.unlock Mutex.tx_data_mutex]

/-- The accesses of `pm_send_ack_packet`. -/
def pm_send_ack_packet_actions : List Action :=
  [Action.lock Mutex.tx_data_mutex,
   Action.write Field.tx_pm_header, Action.write Field.tx_pm_header]
  ++ pm_assemble_header_actions Field.tx_pm_header Field.tx_header
  ++ [Action.unlock Mutex.tx_data_mutex]

/-- The accesses of `pm_wait_for_ack_packet(p, pid)`, for the state `p` the
wait ends in and the return code `rc` of the wait. -/
def pm_wait_for_ack_packet_actions (p : crdata) (pid : Nat) (rc : Int) : List Action :=
  [Action.lock Mutex.rx_data_mutex, Action.cond_wait Mutex.rx_data_mutex,
   Action.unlock Mutex.rx_data_mutex]
  ++ (if rc ≠ 0 then []
      else if p.rx_pm_header.type ≠ PACKET_TYPE_ACK then [Action.read Field.rx_pm_header]
      else if p.rx_pm_header.pid ≠ pid then
        [Action.read Field.rx_pm_header, Action.read Field.rx_pm_header,
         Action.read Field.rx_pm_header]
      else [Action.read Field.rx_pm_header, Action.read Field.rx_pm_header])

/-- The accesses of one attempt of the master in `pm_process`, for the state
`p` its wait ends in: send, wait, `p->ack = ...`, then the loop test
`!p->ack && p->radio_active`. -/
def master_attempt_actions (p : crdata) (pid : Nat) (rc : Int) : List Action :=
  pm_send_data_packet_actions
  ++ pm_wait_for_ack_packet_actions p pid rc
  ++ [Action.write Field.ack, Action.read Field.ack]
  ++ (if rc = 0 ∧ p.rx_pm_header.type = PACKET_TYPE_ACK ∧ p.rx_pm_header.pid = pid then []
      else [Action.read Field.radio_active])

/-- The accesses of a master pass of `pm_process` up to its first attempt:
the loop test, `switch (p->mode)`, `p->ack = false`. -/
def pm_process_master_actions (p : crdata) (pid : Nat) (rc : Int) : List Action :=
  [Action.read Field.radio_active, Action.read Field.mode, Action.write Field.ack]
  ++ master_attempt_actions p pid rc

/-- The accesses of a slave pass of `pm_process`: the loop test,
`switch (p->mode)`, the wait, the decode and its `printf` under the mutex,
then the argument `p->rx_pm_header.pid` and `pm_send_ack_packet`. -/
def pm_process_slave_actions : List Action :=
  [Action.read Field.radio_active, Action.read Field.mode,
   Action.lock Mutex.rx_data_mutex, Action.cond_wait Mutex.rx_data_mutex]
  ++ pm_dissemble_header_actions Field.rx_header Field.rx_pm_header
  ++ [Action.read Field.rx_pm_header, Action.unlock Mutex.rx_data_mutex,
      Action.read Field.rx_pm_header]
  ++ pm_send_ack_packet_actions

/-- The accesses of `ce_process`: it never leaves `while (true) usleep(...)`,
so the assignment to `radio_active` after the loop is never performed. -/
def ce_process_actions : List Action := []

/-- The mutexes that count as the guard of a field: the outbound slot belongs
to `tx_data_mutex`, the inbound slot and the decoded inbound header to
`rx_data_mutex`; `crdata` has no mutex of its own for the counters and the
shutdown flag, so either mutex is accepted for them.  `mode`, `tx_gain` and
`ack` are not part of the link state and need no guard. -/
def guards : Field → Option (List Mutex)
  | Field.tx_header => some [Mutex.tx_data_mutex]
  | Field.tx_payload => some [Mutex.tx_data_mutex]
  | Field.tx_pm_header => some [Mutex.tx_data_mutex]
  | Field.rx_header => some [Mutex.rx_data_mutex]
  | Field.rx_payload => some [Mutex.rx_data_mutex]
  | Field.rx_header_valid => some [Mutex.rx_data_mutex]
  | Field.rx_payload_valid => some [Mutex.rx_data_mutex]
  | Field.rx_pm_header => some [Mutex.rx_data_mutex]
  | Field.num_rx_packets => some [Mutex.tx_data_mutex, Mutex.rx_data_mutex]
  | Field.num_valid_rx_packets => some [Mutex.tx_data_mutex, Mutex.rx_data_mutex]
  | Field.radio_active => some [Mutex.tx_data_mutex, Mutex.rx_data_mutex]
  | Field.mode => none
  | Field.tx_gain => none
  | Field.ack => none

/-- The access to the field is covered by a mutex the thread holds. -/
def guarded (held : List Mutex) (f : Field) : Bool :=
  match guards f with
  | none => true
  | some ms => ms.any (fun m => held.contains m)

/-- The mutexes held after the action. -/
def held_after (held : List Mutex) : Action → List Mutex
  | Action.lock m => m :: held
  | Action.unlock m => held.erase m
  | _ => held

/-- The accesses of the sequence that are made without a guard, starting with
the mutexes `held`. -/
def unguarded : List Mutex → List Action → List Action
  | _, [] => []
  | held, Action.read f :: rest =>
    if guarded held f then unguarded held rest else Action.read f :: unguarded held rest
  | held, Action.write f :: rest =>
    if guarded held f then unguarded held rest else Action.write f :: unguarded held rest
  | held, a :: rest => unguarded (held_after held a) rest

/-- The sets of mutexes held at each hardware write of the sequence. -/
def held_at_hw_write : List Mutex → List Action → List (List Mutex)
  | _, [] => []
  | held, Action.hw_write :: rest => held :: held_at_hw_write held rest
  | held, a :: rest => held_at_hw_write (held_after held a) rest

/-! ## Arithmetic of the byte split -/

theorem and_ff (x : Nat) : x &&& 0x00ff = x % 256 := by
  have h := Nat.and_pow_two_sub_one_eq_mod x 8
  simpa using h

theorem shr_8 (x : Nat) : x >>> 8 = x / 256 := by
  simp [Nat.shiftRight_eq_div_pow]

theorem shl_or (a b : Nat) (hb : b < 256) : (a <<< 8) ||| b = a * 256 + b := by
  have h := Nat.mul_add_lt_is_or (show b < 2 ^ 8 by simpa using hb) a
  rw [Nat.shiftLeft_eq, Nat.mul_comm a (2 ^ 8), ← h]

/-- A buffer with room for a header starts with eleven bytes. -/
theorem eleven_bytes (b : List Nat) (h : 11 ≤ b.length) :
    ∃ b0 b1 b2 b3 b4 b5 b6 b7 b8 b9 b10 rest,
      b = b0 :: b1 :: b2 :: b3 :: b4 :: b5 :: b6 :: b7 :: b8 :: b9 :: b10 :: rest := by
  rcases b with _ | ⟨b0, _ | ⟨b1, _ | ⟨b2, _ | ⟨b3, _ | ⟨b4, _ | ⟨b5, _ | ⟨b6, _ | ⟨b7,
    _ | ⟨b8, _ | ⟨b9, _ | ⟨b10, rest⟩⟩⟩⟩⟩⟩⟩⟩⟩⟩⟩
  all_goals first
    | exact ⟨b0, b1, b2, b3, b4, b5, b6, b7, b8, b9, b10, rest, rfl⟩
    | (simp at h)

/-- Closed form of `pm_assemble_header` on a buffer with room for a header. -/
theorem pm_assemble_header_eq (h : pm_header) (b : List Nat) (hb : 11 ≤ b.length) :
    pm_assemble_header h b = some
      ([h.src0 / 256 % 256, h.src0 % 256, h.src1 / 256 % 256, h.src1 % 256,
        h.dst0 / 256 % 256, h.dst0 % 256, h.dst1 / 256 % 256, h.dst1 % 256,
        h.pid / 256 % 256, h.pid % 256, h.type % 256] ++ b.drop 11) := by
  obtain ⟨b0, b1, b2, b3, b4, b5, b6, b7, b8, b9, b10, rest, rfl⟩ := eleven_bytes b hb
  simp [pm_assemble_header, store, and_ff, shr_8]

/-- Closed form of `pm_dissemble_header` on a buffer that holds a header. -/
theorem pm_dissemble_header_eq (b0 b1 b2 b3 b4 b5 b6 b7 b8 b9 b10 : Nat) (rest : List Nat) :
    pm_dissemble_header (b0 :: b1 :: b2 :: b3 :: b4 :: b5 :: b6 :: b7 :: b8 :: b9 :: b10 :: rest)
      = some { src0 := (b0 <<< 8) ||| b1, src1 := (b2 <<< 8) ||| b3,
               dst0 := (b4 <<< 8) ||| b5, dst1 := (b6 <<< 8) ||| b7,
               pid := (b8 <<< 8) ||| b9, type := b10 } := by
  simp [pm_dissemble_header, load]

theorem pm_dissemble_header_short (b : List Nat) (hb : b.length < 11) :
    pm_dissemble_header b = none := by
  rcases b with _ | ⟨b0, _ | ⟨b1, _ | ⟨b2, _ | ⟨b3, _ | ⟨b4, _ | ⟨b5, _ | ⟨b6, _ | ⟨b7,
    _ | ⟨b8, _ | ⟨b9, _ | ⟨b10, rest⟩⟩⟩⟩⟩⟩⟩⟩⟩⟩⟩
  all_goals first
    | (simp at hb; omega)
    | simp [pm_dissemble_header, load]

theorem join_bytes (x : Nat) (hx : x < 65536) :
    ((x / 256 % 256) <<< 8) ||| (x % 256) = x := by
  rw [shl_or _ _ (Nat.mod_lt _ (by norm_num))]
  omega

theorem split_hi (a b : Nat) (ha : a < 256) (hb : b < 256) :
    ((a <<< 8) ||| b) / 256 % 256 = a := by
  rw [shl_or _ _ hb]
  omega

theorem split_lo (a b : Nat) (hb : b < 256) : ((a <<< 8) ||| b) % 256 = b := by
  rw [shl_or _ _ hb]
  omega

theorem pm_dissemble_header_some (b : List Nat) (hb : 11 ≤ b.length) :
    ∃ h, pm_dissemble_header b = some h := by
  obtain ⟨b0, b1, b2, b3, b4, b5, b6, b7, b8, b9, b10, rest, rfl⟩ := eleven_bytes b hb
  exact ⟨_, pm_dissemble_header_eq _ _ _ _ _ _ _ _ _ _ _ _⟩

theorem join_lt (a b : Nat) (ha : a < 256) (hb : b < 256) : (a <<< 8) ||| b < 65536 := by
  rw [shl_or _ _ hb]
  omega

/-- A header decoded from `unsigned char` values has 16-bit fields and an 8-bit type. -/
theorem pm_dissemble_header_bounds (b : List Nat) (h : pm_header) (hbytes : isBytes b)
    (hd : pm_dissemble_header b = some h) :
    h.src0 < 65536 ∧ h.src1 < 65536 ∧ h.dst0 < 65536 ∧ h.dst1 < 65536 ∧
      h.pid < 65536 ∧ h.type < 256 := by
  by_cases hb : 11 ≤ b.length
  · obtain ⟨b0, b1, b2, b3, b4, b5, b6, b7, b8, b9, b10, rest, rfl⟩ := eleven_bytes b hb
    rw [pm_dissemble_header_eq] at hd
    have e := Option.some.inj hd
    subst e
    have h0 : b0 < 256 := hbytes b0 (by simp)
    have h1 : b1 < 256 := hbytes b1 (by simp)
    have h2 : b2 < 256 := hbytes b2 (by simp)
    have h3 : b3 < 256 := hbytes b3 (by simp)
    have h4 : b4 < 256 := hbytes b4 (by simp)
    have h5 : b5 < 256 := hbytes b5 (by simp)
    have h6 : b6 < 256 := hbytes b6 (by simp)
    have h7 : b7 < 256 := hbytes b7 (by simp)
    have h8 : b8 < 256 := hbytes b8 (by simp)
    have h9 : b9 < 256 := hbytes b9 (by simp)
    have h10 : b10 < 256 := hbytes b10 (by simp)
    exact ⟨join_lt _ _ h0 h1, join_lt _ _ h2 h3, join_lt _ _ h4 h5, join_lt _ _ h6 h7,
      join_lt _ _ h8 h9, h10⟩
  · rw [pm_dissemble_header_short b (by omega)] at hd
    cases hd

/-! ## Header codec: the claims -/

/-- C1. Header round trip: for a header whose `src0`, `src1`, `dst0`, `dst1`
and `pid` are below 65536 and whose `type` is below 256, `pm_assemble_header`
into a buffer with room for the eleven header bytes succeeds, and
`pm_dissemble_header` of the buffer it leaves yields the same header in all
six fields. -/
theorem header_round_trip (h : pm_header) (buf : List Nat) (hbuf : 11 ≤ buf.length)
    (hsrc0 : h.src0 < 65536) (hsrc1 : h.src1 < 65536) (hdst0 : h.dst0 < 65536)
    (hdst1 : h.dst1 < 65536) (hpid : h.pid < 65536) (htype : h.type < 256) :
    ∃ b, pm_assemble_header h buf = some b ∧ pm_dissemble_header b = some h := by
  refine ⟨_, pm_assemble_header_eq h buf hbuf, ?_⟩
  rw [List.cons_append, List.cons_append, List.cons_append, List.cons_append,
    List.cons_append, List.cons_append, List.cons_append, List.cons_append,
    List.cons_append, List.cons_append, List.cons_append, List.nil_append,
    pm_dissemble_header_eq]
  rw [join_bytes _ hsrc0, join_bytes _ hsrc1, join_bytes _ hdst0, join_bytes _ hdst1,
    join_bytes _ hpid, Nat.mod_eq_of_lt htype]

theorem header_round_trip_witness :
    ∃ b, pm_assemble_header ⟨0x1234, 2, 3, 0xffff, 5, 1⟩ (List.replicate 24 0) = some b ∧
      pm_dissemble_header b = some ⟨0x1234, 2, 3, 0xffff, 5, 1⟩ :=
  header_round_trip ⟨0x1234, 2, 3, 0xffff, 5, 1⟩ (List.replicate 24 0)
    (by decide) (by decide) (by decide) (by decide) (by decide) (by decide) (by decide)

/-- C2. Encode layout: on every buffer with room for a header,
`pm_assemble_header` succeeds, keeps the buffer length, writes `src0`, `src1`,
`dst0`, `dst1`, `pid` big-endian into bytes 0..9 (byte `2k` is bits 8..15 and
byte `2k+1` is bits 0..7 of field `k`), writes the low byte of `type` into
byte 10, and leaves every byte at index 11 or above as it was. -/
theorem encode_layout (h : pm_header) (buf : List Nat) (hbuf : 11 ≤ buf.length) :
    ∃ b, pm_assemble_header h buf = some b ∧ b.length = buf.length ∧
      b[0]? = some (h.src0 / 2 ^ 8 % 2 ^ 8) ∧ b[1]? = some (h.src0 % 2 ^ 8) ∧
      b[2]? = some (h.src1 / 2 ^ 8 % 2 ^ 8) ∧ b[3]? = some (h.src1 % 2 ^ 8) ∧
      b[4]? = some (h.dst0 / 2 ^ 8 % 2 ^ 8) ∧ b[5]? = some (h.dst0 % 2 ^ 8) ∧
      b[6]? = some (h.dst1 / 2 ^ 8 % 2 ^ 8) ∧ b[7]? = some (h.dst1 % 2 ^ 8) ∧
      b[8]? = some (h.pid / 2 ^ 8 % 2 ^ 8) ∧ b[9]? = some (h.pid % 2 ^ 8) ∧
      b[10]? = some (h.type % 2 ^ 8) ∧
      ∀ i, 11 ≤ i → b[i]? = buf[i]? := by
  have hlen : ([h.src0 / 256 % 256, h.src0 % 256, h.src1 / 256 % 256, h.src1 % 256,
      h.dst0 / 256 % 256, h.dst0 % 256, h.dst1 / 256 % 256, h.dst1 % 256,
      h.pid / 256 % 256, h.pid % 256, h.type % 256] ++ buf.drop 11).length = buf.length := by
    simp only [List.length_append, List.length_cons, List.length_nil, List.length_drop]
    omega
  have hrest : ∀ i, 11 ≤ i → ([h.src0 / 256 % 256, h.src0 % 256, h.src1 / 256 % 256,
      h.src1 % 256, h.dst0 / 256 % 256, h.dst0 % 256, h.dst1 / 256 % 256, h.dst1 % 256,
      h.pid / 256 % 256, h.pid % 256, h.type % 256] ++ buf.drop 11)[i]? = buf[i]? := by
    intro i hi
    obtain ⟨k, rfl⟩ : ∃ k, i = 11 + k := ⟨i - 11, by omega⟩
    rw [List.getElem?_append_right (by simp)]
    simp
  exact ⟨_, pm_assemble_header_eq h buf hbuf, hlen, by simp, by simp, by simp, by simp,
    by simp, by simp, by simp, by simp, by simp, by simp, by simp, hrest⟩

theorem encode_layout_witness :
    ∃ b, pm_assemble_header ⟨0x1234, 2, 3, 4, 0x0105, 0x301⟩ (List.replicate 24 7) = some b ∧
      b.length = (List.replicate 24 7).length ∧
      b[0]? = some (0x1234 / 2 ^ 8 % 2 ^ 8) ∧ b[1]? = some (0x1234 % 2 ^ 8) ∧
      b[2]? = some (2 / 2 ^ 8 % 2 ^ 8) ∧ b[3]? = some (2 % 2 ^ 8) ∧
      b[4]? = some (3 / 2 ^ 8 % 2 ^ 8) ∧ b[5]? = some (3 % 2 ^ 8) ∧
      b[6]? = some (4 / 2 ^ 8 % 2 ^ 8) ∧ b[7]? = some (4 % 2 ^ 8) ∧
      b[8]? = some (0x0105 / 2 ^ 8 % 2 ^ 8) ∧ b[9]? = some (0x0105 % 2 ^ 8) ∧
      b[10]? = some (0x301 % 2 ^ 8) ∧
      ∀ i, 11 ≤ i → b[i]? = (List.replicate 24 7)[i]? :=
  encode_layout ⟨0x1234, 2, 3, 4, 0x0105, 0x301⟩ (List.replicate 24 7) (by decide)

/-- C3. Decode followed by encode is the identity on 11-byte buffers: every
buffer `b` of eleven bytes decodes to a header whose encoding into any 11-byte
buffer is `b` byte for byte; hence two 11-byte buffers that decode to the same
header are equal. -/
theorem decode_then_encode (b : List Nat) (hlen : b.length = 11) (hbytes : isBytes b) :
    (∃ h, pm_dissemble_header b = some h ∧
      ∀ buf : List Nat, buf.length = 11 → pm_assemble_header h buf = some b) ∧
    (∀ c : List Nat, c.length = 11 → isBytes c →
      pm_dissemble_header c = pm_dissemble_header b → c = b) := by
  have key : ∀ d : List Nat, d.length = 11 → isBytes d →
      ∃ h, pm_dissemble_header d = some h ∧
        ∀ buf : List Nat, buf.length = 11 → pm_assemble_header h buf = some d := by
    intro d hd hdb
    obtain ⟨b0, b1, b2, b3, b4, b5, b6, b7, b8, b9, b10, rest, rfl⟩ :=
      eleven_bytes d (by omega)
    have hrest : rest = [] := by
      cases rest with
      | nil => rfl
      | cons x xs => simp at hd
    subst hrest
    refine ⟨_, pm_dissemble_header_eq _ _ _ _ _ _ _ _ _ _ _ _, ?_⟩
    intro buf hbuf
    have h0 : b0 < 256 := hdb b0 (by simp)
    have h1 : b1 < 256 := hdb b1 (by simp)
    have h2 : b2 < 256 := hdb b2 (by simp)
    have h3 : b3 < 256 := hdb b3 (by simp)
    have h4 : b4 < 256 := hdb b4 (by simp)
    have h5 : b5 < 256 := hdb b5 (by simp)
    have h6 : b6 < 256 := hdb b6 (by simp)
    have h7 : b7 < 256 := hdb b7 (by simp)
    have h8 : b8 < 256 := hdb b8 (by simp)
    have h9 : b9 < 256 := hdb b9 (by simp)
    have h10 : b10 < 256 := hdb b10 (by simp)
    rw [pm_assemble_header_eq _ buf (by omega)]
    have hdrop : buf.drop 11 = [] := by
      apply List.drop_eq_nil_of_le
      omega
    simp only [hdrop, List.append_nil]
    rw [split_hi _ _ h0 h1, split_lo _ _ h1, split_hi _ _ h2 h3, split_lo _ _ h3,
      split_hi _ _ h4 h5, split_lo _ _ h5, split_hi _ _ h6 h7, split_lo _ _ h7,
      split_hi _ _ h8 h9, split_lo _ _ h9, Nat.mod_eq_of_lt h10]
  refine ⟨key b hlen hbytes, ?_⟩
  intro c hc hcb heq
  obtain ⟨h, hd, ha⟩ := key b hlen hbytes
  obtain ⟨h2, hd2, ha2⟩ := key c hc hcb
  rw [hd, hd2] at heq
  have hh : h2 = h := Option.some.inj heq
  subst hh
  have e1 := ha b hlen
  have e2 := ha2 b hlen
  rw [e1] at e2
  exact (Option.some.inj e2).symm

theorem decode_then_encode_witness :
    (∃ h, pm_dissemble_header [18, 52, 0, 2, 0, 3, 255, 255, 0, 5, 1] = some h ∧
      ∀ buf : List Nat, buf.length = 11 →
        pm_assemble_header h buf = some [18, 52, 0, 2, 0, 3, 255, 255, 0, 5, 1]) ∧
    (∀ c : List Nat, c.length = 11 → isBytes c →
      pm_dissemble_header c = pm_dissemble_header [18, 52, 0, 2, 0, 3, 255, 255, 0, 5, 1] →
      c = [18, 52, 0, 2, 0, 3, 255, 255, 0, 5, 1]) :=
  decode_then_encode [18, 52, 0, 2, 0, 3, 255, 255, 0, 5, 1] (by decide) (by decide)

/-- C4, as the code has it. `pm_dissemble_header` has no length check and no
error result: it reads bytes 0..10 and yields a header for every buffer that
holds at least eleven bytes, whatever their values and however long the buffer
is, and that header is the one the first eleven bytes decode to. -/
theorem decode_reads_eleven_bytes (b : List Nat) (hb : 11 ≤ b.length) :
    ∃ h, pm_dissemble_header b = some h ∧ pm_dissemble_header (b.take 11) = some h := by
  obtain ⟨b0, b1, b2, b3, b4, b5, b6, b7, b8, b9, b10, rest, rfl⟩ := eleven_bytes b hb
  refine ⟨_, pm_dissemble_header_eq _ _ _ _ _ _ _ _ _ _ _ _, ?_⟩
  simp only [List.take_succ_cons, List.take_zero]
  exact pm_dissemble_header_eq _ _ _ _ _ _ _ _ _ _ _ _

theorem decode_reads_eleven_bytes_witness :
    ∃ h, pm_dissemble_header (List.replicate 24 9) = some h ∧
      pm_dissemble_header ((List.replicate 24 9).take 11) = some h :=
  decode_reads_eleven_bytes (List.replicate 24 9) (by decide)

/-- C4 as stated fails: a 24-byte buffer, the size of `rx_header` that
`callback` and `pm_process` pass, does not have the 11-byte header length and
is decoded all the same. -/
theorem decode_accepts_24_bytes :
    ([0, 1, 0, 2, 0, 3, 0, 4, 0, 5, 1, 0, 0, 0, 0, 0, 0, 0, 0, 0, 0, 0, 0, 0] : List Nat).length ≠ 11
    ∧ pm_dissemble_header [0, 1, 0, 2, 0, 3, 0, 4, 0, 5, 1, 0, 0, 0, 0, 0, 0, 0, 0, 0, 0, 0, 0, 0]
      = some ⟨1, 2, 3, 4, 5, 1⟩ := by
  decide

/-! ## Receive callback: the three paths -/

theorem memmove_full (dst src : List Nat) (n : Nat) (hs : n ≤ src.length)
    (hd : dst.length = n) : memmove dst src n = some (src.take n) := by
  have hdrop : dst.drop n = [] := List.drop_eq_nil_of_le (by omega)
  simp [memmove, hs, hd, hdrop]

theorem pm_dissemble_header_take (b : List Nat) (hb : 11 ≤ b.length) (n : Nat) (hn : 11 ≤ n) :
    pm_dissemble_header (b.take n) = pm_dissemble_header b := by
  obtain ⟨b0, b1, b2, b3, b4, b5, b6, b7, b8, b9, b10, rest, rfl⟩ := eleven_bytes b hb
  obtain ⟨k, rfl⟩ : ∃ k, n = k + 11 := ⟨n - 11, by omega⟩
  simp only [List.take_succ_cons]
  rw [pm_dissemble_header_eq, pm_dissemble_header_eq]

theorem callback_header_invalid (_header _payload : List Nat) (_payload_valid : Int)
    (p : crdata) :
    callback _header 0 _payload _payload_valid p
      = some ({ p with num_rx_packets := (p.num_rx_packets + 1) % 2 ^ 32 },
          [Event.callback_invoked p.num_valid_rx_packets ((p.num_rx_packets + 1) % 2 ^ 32),
           Event.header_crc_fail]) := by
  simp [callback]

theorem callback_payload_invalid (_header _payload : List Nat) (_header_valid : Int)
    (hv : _header_valid ≠ 0) (p : crdata) :
    callback _header _header_valid _payload 0 p
      = some ({ p with num_rx_packets := (p.num_rx_packets + 1) % 2 ^ 32 },
          [Event.callback_invoked p.num_valid_rx_packets ((p.num_rx_packets + 1) % 2 ^ 32),
           Event.payload_crc_fail]) := by
  simp [callback, hv]

theorem callback_valid (_header _payload : List Nat) (_header_valid _payload_valid : Int)
    (hv : _header_valid ≠ 0) (pv : _payload_valid ≠ 0) (p : crdata)
    (hh : 24 ≤ _header.length) (hpl : 64 ≤ _payload.length)
    (hrh : p.rx_header.length = 24) (hrp : p.rx_payload.length = 64) :
    ∃ h, pm_dissemble_header _header = some h ∧
    callback _header _header_valid _payload _payload_valid p
      = some ({ p with num_rx_packets := (p.num_rx_packets + 1) % 2 ^ 32,
                       num_valid_rx_packets := (p.num_valid_rx_packets + 1) % 2 ^ 32,
                       rx_header := _header.take 24,
                       rx_payload := _payload.take 64,
                       rx_header_valid := true,
                       rx_payload_valid := true,
                       rx_pm_header := h },
          [Event.callback_invoked ((p.num_valid_rx_packets + 1) % 2 ^ 32)
             ((p.num_rx_packets + 1) % 2 ^ 32),
           Event.callback_packet_id h.pid, Event.rx_data_ready]) := by
  obtain ⟨h, hd⟩ := pm_dissemble_header_some _header (by omega)
  refine ⟨h, hd, ?_⟩
  have hd24 : pm_dissemble_header (_header.take 24) = some h := by
    rw [pm_dissemble_header_take _ (by omega) _ (by norm_num), hd]
  simp [callback, hv, pv, memmove_full _ _ 24 hh hrh, memmove_full _ _ 64 hpl hrp, hd24]

/-! ## Receive callback: the claims -/

/-- C8. Receive of a fully valid frame: when `header_valid` and `payload_valid`
are both non-zero, `callback` succeeds, the inbound slot holds the frame's 24
header bytes and 64 payload bytes, both inbound validity flags are true, the
decoded inbound header is `pm_dissemble_header` of the frame's header, and
`rx_data_ready` is signalled exactly once. -/
theorem callback_fully_valid (p : crdata) (_header _payload : List Nat)
    (_header_valid _payload_valid : Int)
    (hv : _header_valid ≠ 0) (pv : _payload_valid ≠ 0) (hp : p.wf)
    (hh : 24 ≤ _header.length) (hpl : 64 ≤ _payload.length) :
    ∃ q out h, callback _header _header_valid _payload _payload_valid p = some (q, out) ∧
      q.rx_header = _header.take 24 ∧ q.rx_payload = _payload.take 64 ∧
      q.rx_header_valid = true ∧ q.rx_payload_valid = true ∧
      pm_dissemble_header _header = some h ∧ q.rx_pm_header = h ∧
      out.count Event.rx_data_ready = 1 := by
  obtain ⟨h, hd, hc⟩ := callback_valid _header _payload _header_valid _payload_valid hv pv p
    hh hpl hp.2.2.1.1 hp.2.2.2.1
  refine ⟨_, _, h, hc, rfl, rfl, rfl, rfl, hd, rfl, ?_⟩
  simp [List.count_cons]

theorem callback_fully_valid_witness :
    ∃ q out h, callback (header_bytes 7 PACKET_TYPE_DATA) 1 (List.replicate 64 3) 1
        (idle_state OPMODE_SLAVE) = some (q, out) ∧
      q.rx_header = (header_bytes 7 PACKET_TYPE_DATA).take 24 ∧
      q.rx_payload = (List.replicate 64 3).take 64 ∧
      q.rx_header_valid = true ∧ q.rx_payload_valid = true ∧
      pm_dissemble_header (header_bytes 7 PACKET_TYPE_DATA) = some h ∧ q.rx_pm_header = h ∧
      out.count Event.rx_data_ready = 1 :=
  callback_fully_valid (idle_state OPMODE_SLAVE) (header_bytes 7 PACKET_TYPE_DATA)
    (List.replicate 64 3) 1 1 (by decide) (by decide) (by decide) (by decide) (by decide)

/-- C9. Receive of a frame with an invalid header: when `header_valid` is 0,
whatever `payload_valid` is, `callback` changes nothing but the
packets-received counter: the inbound slot (header bytes, payload bytes,
validity flags, decoded header) and the outbound slot are as before, and
`rx_data_ready` is not signalled. -/
theorem callback_invalid_header (p : crdata) (_header _payload : List Nat)
    (_payload_valid : Int) :
    ∃ q out, callback _header 0 _payload _payload_valid p = some (q, out) ∧
      q = { p with num_rx_packets := (p.num_rx_packets + 1) % 2 ^ 32 } ∧
      q.rx_header = p.rx_header ∧ q.rx_payload = p.rx_payload ∧
      q.rx_header_valid = p.rx_header_valid ∧ q.rx_payload_valid = p.rx_payload_valid ∧
      q.rx_pm_header = p.rx_pm_header ∧
      q.tx_header = p.tx_header ∧ q.tx_payload = p.tx_payload ∧
      q.tx_pm_header = p.tx_pm_header ∧
      out.count Event.rx_data_ready = 0 := by
  refine ⟨_, _, callback_header_invalid _header _payload _payload_valid p, rfl, rfl, rfl, rfl,
    rfl, rfl, rfl, rfl, rfl, ?_⟩
  simp [List.count_cons]

/-- C10, as the code has it. When `header_valid` is non-zero and
`payload_valid` is 0, `callback` returns right after printing
`PAYLOAD CRC FAIL`: the whole frame is dropped, the header is not decoded and
no packet id is printed; only the packets-received counter changes, so the
inbound payload, the inbound header bytes and the decoded inbound header are
as before, and `rx_data_ready` is not signalled. -/
theorem callback_invalid_payload (p : crdata) (_header _payload : List Nat)
    (_header_valid : Int) (hv : _header_valid ≠ 0) :
    callback _header _header_valid _payload 0 p
      = some ({ p with num_rx_packets := (p.num_rx_packets + 1) % 2 ^ 32 },
          [Event.callback_invoked p.num_valid_rx_packets ((p.num_rx_packets + 1) % 2 ^ 32),
           Event.payload_crc_fail]) :=
  callback_payload_invalid _header _payload _header_valid hv p

theorem callback_invalid_payload_witness :
    callback (header_bytes 7 PACKET_TYPE_DATA) 1 (List.replicate 64 3) 0
        (idle_state OPMODE_SLAVE)
      = some ({ idle_state OPMODE_SLAVE with
                num_rx_packets := ((idle_state OPMODE_SLAVE).num_rx_packets + 1) % 2 ^ 32 },
          [Event.callback_invoked (idle_state OPMODE_SLAVE).num_valid_rx_packets
             (((idle_state OPMODE_SLAVE).num_rx_packets + 1) % 2 ^ 32),
           Event.payload_crc_fail]) :=
  callback_invalid_payload (idle_state OPMODE_SLAVE) (header_bytes 7 PACKET_TYPE_DATA)
    (List.replicate 64 3) 1 (by decide)

/-- C10 as stated fails: a frame whose header decodes to packet id 7 arrives
with a valid header and an invalid payload; afterwards the decoded inbound
header still has packet id 0, not 7, and the output holds no packet id. -/
theorem callback_invalid_payload_skips_decode :
    pm_dissemble_header (header_bytes 7 PACKET_TYPE_DATA) = some ⟨0, 0, 0, 0, 7, 0⟩ ∧
    (callback (header_bytes 7 PACKET_TYPE_DATA) 1 (List.replicate 64 3) 0
        (idle_state OPMODE_SLAVE)).map (fun r => (r.1.rx_pm_header, r.2))
      = some (⟨0, 0, 0, 0, 0, 0⟩, [Event.callback_invoked 0 1, Event.payload_crc_fail]) := by
  decide

/-! ## The receive thread as seen by the packet manager -/

theorem sent_packets_append (a b : List Event) :
    sent_packets (a ++ b) = sent_packets a ++ sent_packets b := by
  induction a with
  | nil => rfl
  | cons e a ih => cases e <;> simp [sent_packets, ih]

theorem isBytes_take (b : List Nat) (n : Nat) (hb : isBytes b) : isBytes (b.take n) :=
  fun x hx => hb x (List.mem_of_mem_take hx)

theorem same_outbound_refl (p : crdata) : same_outbound p p :=
  ⟨rfl, rfl, rfl, rfl, rfl, rfl, rfl⟩

theorem same_outbound_trans (p q r : crdata) (h1 : same_outbound p q)
    (h2 : same_outbound q r) : same_outbound p r := by
  obtain ⟨a1, a2, a3, a4, a5, a6, a7⟩ := h1
  obtain ⟨b1, b2, b3, b4, b5, b6, b7⟩ := h2
  exact ⟨b1.trans a1, b2.trans a2, b3.trans a3, b4.trans a4, b5.trans a5, b6.trans a6,
    b7.trans a7⟩

/-- On well-formed input `callback` returns, keeps the buffers well-formed,
leaves the outbound side alone and hands nothing to the transmit thread. -/
theorem callback_spec (f : RxFrame) (p : crdata) (hp : p.wf) (hf : f.wf) :
    ∃ q out, callback f.header f.header_valid f.payload f.payload_valid p = some (q, out) ∧
      q.wf ∧ same_outbound p q ∧ sent_packets out = [] := by
  by_cases hv : f.header_valid = 0
  · rw [hv, callback_header_invalid]
    exact ⟨_, _, rfl, hp, same_outbound_refl p, rfl⟩
  · by_cases pv : f.payload_valid = 0
    · rw [pv, callback_payload_invalid _ _ _ hv]
      exact ⟨_, _, rfl, hp, same_outbound_refl p, rfl⟩
    · obtain ⟨h, -, hc⟩ := callback_valid f.header f.payload f.header_valid f.payload_valid
        hv pv p hf.1.1 hf.2.1 hp.2.2.1.1 hp.2.2.2.1
      refine ⟨_, _, hc, ?_, same_outbound_refl p, rfl⟩
      refine ⟨hp.1, hp.2.1, ⟨?_, isBytes_take _ _ hf.1.2⟩, ⟨?_, isBytes_take _ _ hf.2.2⟩⟩
      · simp only [List.length_take]
        have := hf.1.1
        omega
      · simp only [List.length_take]
        have := hf.2.1
        omega

theorem receive_spec (fs : List RxFrame) (p : crdata) (hp : p.wf) (hfs : ∀ f ∈ fs, f.wf) :
    ∃ q out, receive fs p = some (q, out) ∧ q.wf ∧ same_outbound p q ∧
      sent_packets out = [] := by
  induction fs generalizing p with
  | nil => exact ⟨p, [], rfl, hp, same_outbound_refl p, rfl⟩
  | cons f fs ih =>
    obtain ⟨q1, out1, hc, hq1, hs1, ho1⟩ := callback_spec f p hp (hfs f (by simp))
    obtain ⟨q2, out2, hr, hq2, hs2, ho2⟩ := ih q1 hq1 (fun g hg => hfs g (by simp [hg]))
    refine ⟨q2, out1 ++ out2, ?_, hq2, same_outbound_trans _ _ _ hs1 hs2, ?_⟩
    · simp [receive, hc, hr]
    · rw [sent_packets_append, ho1, ho2]
      rfl

/-- Result of `pm_wait_for_ack_packet` in terms of the state `q` the wait ends in. -/
theorem pm_wait_for_ack_packet_eq (p q : crdata) (pid : Nat) (w : Wait) (out : List Event)
    (hr : receive w.frames p = some (q, out)) :
    ∃ out2, pm_wait_for_ack_packet p pid w
      = some (decide (w.rc = 0 ∧ q.rx_pm_header.type = PACKET_TYPE_ACK ∧
          q.rx_pm_header.pid = pid), q, out ++ Event.received_signal w.rc :: out2) ∧
      sent_packets out2 = [] := by
  by_cases hrc : w.rc = 0
  · by_cases ht : q.rx_pm_header.type = PACKET_TYPE_ACK
    · by_cases hpid : q.rx_pm_header.pid = pid
      · exact ⟨[Event.received_ack pid], by simp [pm_wait_for_ack_packet, hr, hrc, ht, hpid], rfl⟩
      · exact ⟨[Event.wrong_packet_id q.rx_pm_header.pid pid],
          by simp [pm_wait_for_ack_packet, hr, hrc, ht, hpid], rfl⟩
    · exact ⟨[Event.wrong_packet_type], by simp [pm_wait_for_ack_packet, hr, hrc, ht], rfl⟩
  · exact ⟨[Event.timeout], by simp [pm_wait_for_ack_packet, hr, hrc], rfl⟩

/-! ## Ack acceptance -/

/-- C5. Ack acceptance: on well-formed input `pm_wait_for_ack_packet` returns,
and it returns true if and only if the timed wait returned 0 and the decoded
inbound header, as the wait leaves it, has type `PACKET_TYPE_ACK` and the
expected packet id.  In particular a timeout is never accepted, and an inbound
header with id 4 is not accepted while id 5 is expected. -/
theorem ack_acceptance (p : crdata) (pid : Nat) (w : Wait) (hp : p.wf)
    (hw : ∀ f ∈ w.frames, f.wf) :
    ∃ b q out, pm_wait_for_ack_packet p pid w = some (b, q, out) ∧
      (∃ out1, receive w.frames p = some (q, out1)) ∧
      (b = true ↔ w.rc = 0 ∧ q.rx_pm_header.type = PACKET_TYPE_ACK ∧
        q.rx_pm_header.pid = pid) ∧
      (w.rc ≠ 0 → b = false) ∧
      (q.rx_pm_header.pid = 4 → pid = 5 → b = false) := by
  obtain ⟨q, out1, hr, -, -, -⟩ := receive_spec w.frames p hp hw
  obtain ⟨out2, he, -⟩ := pm_wait_for_ack_packet_eq p q pid w out1 hr
  refine ⟨_, q, _, he, ⟨out1, hr⟩, by simp, ?_, ?_⟩
  · intro hrc
    simp [hrc]
  · intro h4 h5
    simp [h4, h5]

theorem ack_acceptance_witness :
    ∃ b q out, pm_wait_for_ack_packet (idle_state OPMODE_MASTER) 5
        { frames := [valid_frame 4 PACKET_TYPE_ACK], rc := 0 } = some (b, q, out) ∧
      (∃ out1, receive [valid_frame 4 PACKET_TYPE_ACK] (idle_state OPMODE_MASTER)
        = some (q, out1)) ∧
      (b = true ↔ (0 : Int) = 0 ∧ q.rx_pm_header.type = PACKET_TYPE_ACK ∧
        q.rx_pm_header.pid = 5) ∧
      ((0 : Int) ≠ 0 → b = false) ∧
      (q.rx_pm_header.pid = 4 → 5 = 5 → b = false) :=
  ack_acceptance (idle_state OPMODE_MASTER) 5
    { frames := [valid_frame 4 PACKET_TYPE_ACK], rc := 0 } (by decide) (by decide)

/-! ## Sending -/

theorem join_bytes_mod (x : Nat) : ((x / 256 % 256) <<< 8) ||| (x % 256) = x % 65536 := by
  rw [shl_or _ _ (Nat.mod_lt _ (by norm_num))]
  omega

theorem pm_assemble_header_short (h : pm_header) (b : List Nat) (hb : b.length < 11) :
    pm_assemble_header h b = none := by
  rcases b with _ | ⟨b0, _ | ⟨b1, _ | ⟨b2, _ | ⟨b3, _ | ⟨b4, _ | ⟨b5, _ | ⟨b6, _ | ⟨b7,
    _ | ⟨b8, _ | ⟨b9, _ | ⟨b10, rest⟩⟩⟩⟩⟩⟩⟩⟩⟩⟩⟩
  all_goals first
    | (simp at hb; omega)
    | simp [pm_assemble_header, store]

theorem pm_assemble_header_image (h : pm_header) (b : List Nat) (hb : 11 ≤ b.length) :
    pm_assemble_header h b = some (header_image h ++ b.drop 11) :=
  pm_assemble_header_eq h b hb

theorem header_image_length (h : pm_header) : (header_image h).length = 11 := rfl

/-- What `pm_dissemble_header` reads back from the bytes `pm_assemble_header` wrote. -/
theorem pm_dissemble_header_image (h : pm_header) (rest : List Nat) :
    pm_dissemble_header (header_image h ++ rest)
      = some { src0 := h.src0 % 65536, src1 := h.src1 % 65536, dst0 := h.dst0 % 65536,
               dst1 := h.dst1 % 65536, pid := h.pid % 65536, type := h.type % 256 } := by
  unfold header_image
  rw [List.cons_append, List.cons_append, List.cons_append, List.cons_append,
    List.cons_append, List.cons_append, List.cons_append, List.cons_append,
    List.cons_append, List.cons_append, List.cons_append, List.nil_append,
    pm_dissemble_header_eq]
  rw [join_bytes_mod, join_bytes_mod, join_bytes_mod, join_bytes_mod, join_bytes_mod]

theorem store_some (b : List Nat) (i v : Nat) (hi : i < b.length) :
    store b i v = some (b.set i (v % 256)) := by
  simp [store, hi]

theorem isBytes_set (b : List Nat) (i v : Nat) (hb : isBytes b) (hv : v < 256) :
    isBytes (b.set i v) := by
  intro x hx
  rcases List.mem_or_eq_of_mem_set hx with h | h
  · exact hb x h
  · rw [h]
    exact hv

theorem fill_loop_spec (rand : Nat → Nat) (l : List Nat) (b : List Nat)
    (hl : ∀ i ∈ l, i < b.length) (hb : isBytes b) :
    ∃ c, l.foldlM (fun b i => store b i (rand i % 256)) b = some c ∧
      c.length = b.length ∧ isBytes c := by
  induction l generalizing b with
  | nil => exact ⟨b, rfl, rfl, hb⟩
  | cons i l ih =>
    have hi : i < b.length := hl i (by simp)
    obtain ⟨c, hc, hlen, hcb⟩ := ih (b.set i (rand i % 256 % 256))
      (fun j hj => by rw [List.length_set]; exact hl j (by simp [hj]))
      (isBytes_set _ _ _ hb (Nat.mod_lt _ (by norm_num)))
    refine ⟨c, ?_, ?_, hcb⟩
    · rw [List.foldlM_cons, store_some _ _ _ hi]
      exact hc
    · rw [hlen, List.length_set]

theorem fill_payload_spec (rand : Nat → Nat) (b : List Nat) (hlen : b.length = 64)
    (hb : isBytes b) :
    ∃ c, fill_payload rand b = some c ∧ c.length = 64 ∧ isBytes c := by
  obtain ⟨c, hc, hl, hcb⟩ := fill_loop_spec rand (List.range 64) b
    (fun i hi => by rw [hlen]; exact List.mem_range.mp hi) hb
  exact ⟨c, hc, by rw [hl, hlen], hcb⟩

theorem isBytes_image (h : pm_header) (rest : List Nat) (hr : isBytes rest) :
    isBytes (header_image h ++ rest) := by
  intro x hx
  simp only [header_image, List.mem_append, List.mem_cons, List.mem_singleton,
    List.not_mem_nil, or_false] at hx
  rcases hx with (h | h | h | h | h | h | h | h | h | h | h) | h
  all_goals first
    | exact hr x h
    | (rw [h]; exact Nat.mod_lt _ (by norm_num))

theorem isBytes_drop (b : List Nat) (n : Nat) (hb : isBytes b) : isBytes (b.drop n) :=
  fun x hx => hb x (List.mem_of_mem_drop hx)

theorem image_append_length (h : pm_header) (b : List Nat) (hb : 11 ≤ b.length) :
    (header_image h ++ b.drop 11).length = b.length := by
  rw [List.length_append, header_image_length, List.length_drop]
  omega

/-- Closed form of `pm_send_data_packet` when the outbound header has room and
the payload loop succeeds. -/
theorem pm_send_data_packet_eq (p : crdata) (pid : Nat) (rand : Nat → Nat) (c : List Nat)
    (hb : 11 ≤ p.tx_header.length) (hc : fill_payload rand p.tx_payload = some c) :
    pm_send_data_packet p pid rand
      = some ({ p with
                tx_pm_header := { p.tx_pm_header with pid := pid, type := PACKET_TYPE_DATA },
                tx_header := header_image
                    { p.tx_pm_header with pid := pid, type := PACKET_TYPE_DATA }
                  ++ p.tx_header.drop 11,
                tx_payload := c },
          [Event.tx_data_ready
            (header_image { p.tx_pm_header with pid := pid, type := PACKET_TYPE_DATA }
              ++ p.tx_header.drop 11) c]) := by
  simp only [pm_send_data_packet, pm_assemble_header_image _ _ hb, Option.bind_eq_bind,
    Option.some_bind, hc]

/-- If `pm_send_data_packet` returns, it hands one packet to the transmit
thread, and that packet decodes to a Data header with the given id. -/
theorem pm_send_data_packet_sound (p q : crdata) (pid : Nat) (rand : Nat → Nat)
    (out : List Event) (hs : pm_send_data_packet p pid rand = some (q, out)) :
    ∃ s h, sent_packets out = [s] ∧ pm_dissemble_header s.1 = some h ∧
      h.type = PACKET_TYPE_DATA ∧ h.pid = pid % 65536 := by
  by_cases hb : 11 ≤ p.tx_header.length
  · cases hf : fill_payload rand p.tx_payload with
    | none => simp [pm_send_data_packet, pm_assemble_header_image _ _ hb, hf] at hs
    | some c =>
      rw [pm_send_data_packet_eq p pid rand c hb hf] at hs
      simp only [Option.some.injEq, Prod.mk.injEq] at hs
      obtain ⟨-, ho⟩ := hs
      subst ho
      exact ⟨_, _, rfl, pm_dissemble_header_image
        { p.tx_pm_header with pid := pid, type := PACKET_TYPE_DATA } (p.tx_header.drop 11),
        rfl, rfl⟩
  · simp [pm_send_data_packet, pm_assemble_header_short _ _ (by omega : p.tx_header.length < 11)]
      at hs

/-- On a well-formed state `pm_send_data_packet` returns and touches only the
outbound slot. -/
theorem pm_send_data_packet_total (p : crdata) (pid : Nat) (rand : Nat → Nat) (hp : p.wf) :
    ∃ q out, pm_send_data_packet p pid rand = some (q, out) ∧ q.wf ∧
      q.radio_active = p.radio_active ∧ q.mode = p.mode := by
  have hb : 11 ≤ p.tx_header.length := by
    rw [hp.1.1]
    norm_num
  obtain ⟨c, hc, hlen, hcb⟩ := fill_payload_spec rand p.tx_payload hp.2.1.1 hp.2.1.2
  refine ⟨_, _, pm_send_data_packet_eq p pid rand c hb hc, ?_, rfl, rfl⟩
  refine ⟨⟨?_, isBytes_image _ _ (isBytes_drop _ _ hp.1.2)⟩, ⟨hlen, hcb⟩, hp.2.2.1, hp.2.2.2⟩
  rw [← hp.1.1]
  exact image_append_length _ _ hb

/-! ## The master loop -/

theorem callback_sent (_header _payload : List Nat) (_header_valid _payload_valid : Int)
    (p q : crdata) (out : List Event)
    (h : callback _header _header_valid _payload _payload_valid p = some (q, out)) :
    sent_packets out = [] := by
  by_cases hv : _header_valid = 0
  · subst hv
    rw [callback_header_invalid] at h
    simp only [Option.some.injEq, Prod.mk.injEq] at h
    rw [← h.2]
    rfl
  · by_cases pv : _payload_valid = 0
    · subst pv
      rw [callback_payload_invalid _ _ _ hv] at h
      simp only [Option.some.injEq, Prod.mk.injEq] at h
      rw [← h.2]
      rfl
    · simp only [callback, hv, pv, if_false, Option.bind_eq_bind, Option.bind_eq_some,
        Option.some.injEq, Prod.mk.injEq] at h
      obtain ⟨a, -, b, -, c, -, -, ho⟩ := h
      rw [← ho]
      rfl

theorem receive_sent (fs : List RxFrame) (p q : crdata) (out : List Event)
    (h : receive fs p = some (q, out)) : sent_packets out = [] := by
  induction fs generalizing p q out with
  | nil =>
    simp only [receive, Option.some.injEq, Prod.mk.injEq] at h
    rw [← h.2]
    rfl
  | cons f fs ih =>
    simp only [receive, Option.bind_eq_bind, Option.bind_eq_some, Option.some.injEq,
      Prod.mk.injEq, Prod.exists] at h
    obtain ⟨q1, out1, hc, q2, out2, hr, -, ho⟩ := h
    rw [← ho, sent_packets_append, callback_sent _ _ _ _ _ _ _ hc, ih _ _ _ hr]
    rfl

theorem pm_wait_for_ack_packet_sent (p q : crdata) (pid : Nat) (w : Wait) (b : Bool)
    (out : List Event) (h : pm_wait_for_ack_packet p pid w = some (b, q, out)) :
    sent_packets out = [] := by
  cases hr : receive w.frames p with
  | none => simp [pm_wait_for_ack_packet, hr] at h
  | some r =>
    obtain ⟨q1, out1⟩ := r
    obtain ⟨out2, he, ho2⟩ := pm_wait_for_ack_packet_eq p q1 pid w out1 hr
    rw [he] at h
    simp only [Option.some.injEq, Prod.mk.injEq] at h
    rw [← h.2.2, sent_packets_append, receive_sent _ _ _ _ hr]
    simpa [sent_packets] using ho2

/-- If an attempt of the master returns, it counted itself and handed exactly
one packet to the transmit thread: a Data packet with the current id. -/
theorem master_attempt_sound (p q : crdata) (l k : pm_locals) (t : Turn) (out : List Event)
    (h : master_attempt p l t = some (q, k, out)) :
    k = { pid := l.pid, tx_attempt := (l.tx_attempt + 1) % 2 ^ 32 } ∧
    ∃ s hd, sent_packets out = [s] ∧ pm_dissemble_header s.1 = some hd ∧
      hd.type = PACKET_TYPE_DATA ∧ hd.pid = l.pid % 65536 := by
  simp only [master_attempt, Option.bind_eq_bind, Option.bind_eq_some, Option.some.injEq,
    Prod.mk.injEq, Prod.exists] at h
  obtain ⟨q1, out1, hs, b, q2, out2, hw, -, hk, ho⟩ := h
  obtain ⟨s, hd, h1, h2, h3, h4⟩ := pm_send_data_packet_sound _ _ _ _ _ hs
  refine ⟨hk.symm, s, hd, ?_, h2, h3, h4⟩
  rw [← ho, sent_packets_append, sent_packets_append, h1,
    pm_wait_for_ack_packet_sent _ _ _ _ _ _ hw]
  rfl

/-- On well-formed input an attempt of the master is a send, the frames
received during the wait and the acceptance test on the state they leave. -/
theorem master_attempt_eq (p : crdata) (l : pm_locals) (t : Turn) (hp : p.wf)
    (ht : ∀ f ∈ t.wait.frames, f.wf) :
    ∃ q1 o1 q2 o2 o3, pm_send_data_packet p l.pid t.rand = some (q1, o1) ∧ q1.wf ∧
      q1.radio_active = p.radio_active ∧ q1.mode = p.mode ∧
      receive t.wait.frames q1 = some (q2, o2) ∧ q2.wf ∧ same_outbound q1 q2 ∧
      master_attempt p l t
        = some ({ q2 with ack := decide (t.wait.rc = 0 ∧
                    q2.rx_pm_header.type = PACKET_TYPE_ACK ∧ q2.rx_pm_header.pid = l.pid) },
            { l with tx_attempt := (l.tx_attempt + 1) % 2 ^ 32 },
            [Event.transmitting_packet l.pid l.tx_attempt] ++ o1
              ++ (o2 ++ Event.received_signal t.wait.rc :: o3)) := by
  obtain ⟨q1, out1, hs, hq1, ha1, hm1⟩ := pm_send_data_packet_total p l.pid t.rand hp
  obtain ⟨q2, out2, hr, hq2, hso, -⟩ := receive_spec t.wait.frames q1 hq1 ht
  obtain ⟨out3, he, -⟩ := pm_wait_for_ack_packet_eq q1 q2 l.pid t.wait out2 hr
  refine ⟨q1, out1, q2, out2, out3, hs, hq1, ha1, hm1, hr, hq2, hso, ?_⟩
  simp only [master_attempt, hs, he, Option.bind_eq_bind, Option.some_bind]

/-- On well-formed input an attempt of the master returns, in a well-formed
state with the shutdown flag and the mode as before. -/
theorem master_attempt_total (p : crdata) (l : pm_locals) (t : Turn) (hp : p.wf)
    (ht : ∀ f ∈ t.wait.frames, f.wf) :
    ∃ q k out, master_attempt p l t = some (q, k, out) ∧ q.wf ∧
      q.radio_active = p.radio_active ∧ q.mode = p.mode := by
  obtain ⟨q1, o1, q2, o2, o3, -, -, ha1, hm1, -, hq2, hso, heq⟩ := master_attempt_eq p l t hp ht
  exact ⟨_, _, _, heq, hq2, hso.2.2.1.trans ha1, hso.2.1.trans hm1⟩

/-- If the master loop returns, the packet id is the one it started with and
every packet it handed to the transmit thread is a Data packet with that id. -/
theorem master_loop_sound (ts : List Turn) (p q : crdata) (l k : pm_locals)
    (out : List Event) (rest : List Turn)
    (h : master_loop ts p l = some (q, k, out, rest)) :
    k.pid = l.pid ∧
    ∀ s ∈ sent_packets out, ∃ hd, pm_dissemble_header s.1 = some hd ∧
      hd.type = PACKET_TYPE_DATA ∧ hd.pid = l.pid % 65536 := by
  induction ts generalizing p q l k out rest with
  | nil => simp [master_loop] at h
  | cons t ts ih =>
    simp only [master_loop, Option.bind_eq_bind, Option.bind_eq_some, Prod.exists] at h
    obtain ⟨q1, k1, out1, ha, hrest⟩ := h
    obtain ⟨hk1, s, hd, hs1, hdec, hty, hpid⟩ := master_attempt_sound _ _ _ _ _ _ ha
    have hk1pid : k1.pid = l.pid := by rw [hk1]
    split at hrest
    · simp only [Option.bind_eq_some, Option.some.injEq, Prod.mk.injEq, Prod.exists] at hrest
      obtain ⟨q2, k2, out2, rest2, hl, -, hk, ho, -⟩ := hrest
      obtain ⟨hk2, hall⟩ := ih _ _ _ _ _ _ hl
      refine ⟨by rw [← hk, hk2, hk1pid], ?_⟩
      intro x hx
      rw [← ho, sent_packets_append, hs1] at hx
      rcases List.mem_append.mp hx with hx | hx
      · rw [List.mem_singleton.mp hx]
        exact ⟨hd, hdec, hty, hpid⟩
      · obtain ⟨hd2, e1, e2, e3⟩ := hall x hx
        exact ⟨hd2, e1, e2, by rw [e3, hk1pid]⟩
    · simp only [Option.some.injEq, Prod.mk.injEq] at hrest
      obtain ⟨-, hk, ho, -⟩ := hrest
      refine ⟨by rw [← hk, hk1pid], ?_⟩
      intro x hx
      rw [← ho, hs1] at hx
      rw [List.mem_singleton.mp hx]
      exact ⟨hd, hdec, hty, hpid⟩

theorem attempt_acks_cons (t : Turn) (ts : List Turn) (p q : crdata) (l k : pm_locals)
    (out : List Event) (ha : master_attempt p l t = some (q, k, out)) :
    attempt_acks (t :: ts) p l = (attempt_acks ts q k).map (fun acks => q.ack :: acks) := by
  simp only [attempt_acks, ha, Option.bind_eq_bind, Option.some_bind]
  cases attempt_acks ts q k <;> rfl

theorem master_loop_cons (t : Turn) (ts : List Turn) (p q : crdata) (l k : pm_locals)
    (out : List Event) (ha : master_attempt p l t = some (q, k, out)) :
    master_loop (t :: ts) p l
      = if !q.ack && q.radio_active then
          (master_loop ts q k).map (fun r => (r.1, r.2.1, out ++ r.2.2.1, r.2.2.2))
        else some (q, k, out, ts) := by
  simp only [master_loop, ha, Option.bind_eq_bind, Option.some_bind]
  split
  · cases master_loop ts q k <;> rfl
  · rfl

/-- The master loop run against `fails.length` failing waits followed by a
successful one: it returns after `fails.length + 1` attempts. -/
theorem master_loop_spec (ok : Turn) (rest : List Turn) (fails : List Turn) (p : crdata)
    (l : pm_locals) (hp : p.wf) (hact : p.radio_active = true)
    (hwf : ∀ t ∈ fails ++ [ok], ∀ f ∈ t.wait.frames, f.wf)
    (hacks : attempt_acks (fails ++ [ok]) p l
      = some (List.replicate fails.length false ++ [true])) :
    ∃ q out, master_loop (fails ++ ok :: rest) p l
        = some (q, { pid := l.pid,
                     tx_attempt := (l.tx_attempt + fails.length + 1) % 2 ^ 32 }, out, rest) ∧
      q.wf ∧ q.radio_active = true ∧ q.mode = p.mode ∧ q.ack = true ∧
      (sent_packets out).length = fails.length + 1 := by
  induction fails generalizing p l with
  | nil =>
    obtain ⟨q, k, out, ha, hq, hqa, hqm⟩ := master_attempt_total p l ok hp
      (hwf ok (by simp))
    obtain ⟨hk, s, hd, hs, -⟩ := master_attempt_sound _ _ _ _ _ _ ha
    rw [List.nil_append, attempt_acks_cons _ _ _ _ _ _ _ ha] at hacks
    simp only [attempt_acks, Option.map_some', List.length_nil, List.replicate_zero,
      List.nil_append, Option.some.injEq, List.cons.injEq, and_true] at hacks
    refine ⟨q, out, ?_, hq, hqa.trans hact, hqm, hacks, ?_⟩
    · rw [List.nil_append, master_loop_cons _ _ _ _ _ _ _ ha, hacks, hk]
      simp
    · rw [hs]
      rfl
  | cons t fs ih =>
    obtain ⟨q, k, out, ha, hq, hqa, hqm⟩ := master_attempt_total p l t hp
      (hwf t (by simp))
    obtain ⟨hk, s, hd, hs, -⟩ := master_attempt_sound _ _ _ _ _ _ ha
    rw [List.cons_append, attempt_acks_cons _ _ _ _ _ _ _ ha] at hacks
    cases hrec : attempt_acks (fs ++ [ok]) q k with
    | none => simp [hrec] at hacks
    | some acks =>
      simp only [hrec, Option.map_some', List.length_cons, List.replicate_succ,
        List.cons_append, Option.some.injEq, List.cons.injEq] at hacks
      obtain ⟨hack, hacks2⟩ := hacks
      rw [hacks2] at hrec
      obtain ⟨q2, out2, hl, hq2, hq2a, hq2m, hq2ack, hcount⟩ := ih q k hq (hqa.trans hact)
        (fun u hu => hwf u (by simp only [List.cons_append, List.mem_cons]; exact Or.inr hu))
        hrec
      refine ⟨q2, out ++ out2, ?_, hq2, hq2a, hq2m.trans hqm, hq2ack, ?_⟩
      · rw [List.cons_append, master_loop_cons _ _ _ _ _ _ _ ha, hack, hqa.trans hact, hl, hk]
        simp only [Bool.not_false, Bool.and_self, if_true, Option.map_some',
          List.length_cons, Option.some.injEq, Prod.mk.injEq, pm_locals.mk.injEq, true_and,
          and_true]
        norm_num
        omega
      · rw [sent_packets_append, hs]
        simp only [List.length_append, List.length_cons, List.length_nil, hcount]
        omega

/-! ## Two particular waits -/

/-- An attempt whose wait times out is not acknowledged. -/
theorem master_attempt_timed_out (p : crdata) (l : pm_locals) (hp : p.wf) :
    ∃ q k out, master_attempt p l timed_out = some (q, k, out) ∧ q.wf ∧
      q.radio_active = p.radio_active ∧ q.ack = false := by
  obtain ⟨q1, o1, q2, o2, o3, -, -, ha1, -, -, hq2, hso, heq⟩ :=
    master_attempt_eq p l timed_out hp (by decide)
  refine ⟨_, _, _, heq, hq2, hso.2.2.1.trans ha1, ?_⟩
  simp [timed_out]

/-- An attempt for id 5 whose wait delivers a valid Ack for id 5 is acknowledged. -/
theorem master_attempt_delivered (p : crdata) (l : pm_locals) (hp : p.wf) (hl : l.pid = 5) :
    ∃ q k out, master_attempt p l (delivered (valid_frame 5 PACKET_TYPE_ACK))
        = some (q, k, out) ∧ q.ack = true := by
  obtain ⟨q1, o1, q2, o2, o3, -, hq1, -, -, hr, -, -, heq⟩ :=
    master_attempt_eq p l (delivered (valid_frame 5 PACKET_TYPE_ACK)) hp (by decide)
  refine ⟨_, _, _, heq, ?_⟩
  obtain ⟨h, hd, hc⟩ := callback_valid (header_bytes 5 PACKET_TYPE_ACK) (List.replicate 64 0)
    1 1 (by decide) (by decide) q1 (by decide) (by decide) hq1.2.2.1.1 hq1.2.2.2.1
  have hh : h = ⟨0, 0, 0, 0, 5, 1⟩ := by
    have e : pm_dissemble_header (header_bytes 5 PACKET_TYPE_ACK) = some ⟨0, 0, 0, 0, 5, 1⟩ := by
      decide
    rw [e] at hd
    exact (Option.some.inj hd).symm
  have hr2 : receive [valid_frame 5 PACKET_TYPE_ACK] q1 = some (q2, o2) := hr
  simp only [receive, valid_frame, hc, Option.bind_eq_bind, Option.some_bind,
    Option.some.injEq, Prod.mk.injEq] at hr2
  obtain ⟨hq2, -⟩ := hr2
  subst hq2
  simp [delivered, hh, hl, PACKET_TYPE_ACK]

theorem attempt_acks_timeouts (fails : List Turn) (hall : ∀ t ∈ fails, t = timed_out)
    (p : crdata) (l : pm_locals) (hp : p.wf) (hl : l.pid = 5) :
    attempt_acks (fails ++ [delivered (valid_frame 5 PACKET_TYPE_ACK)]) p l
      = some (List.replicate fails.length false ++ [true]) := by
  induction fails generalizing p l with
  | nil =>
    obtain ⟨q, k, out, ha, hack⟩ := master_attempt_delivered p l hp hl
    rw [List.nil_append, attempt_acks_cons _ _ _ _ _ _ _ ha, hack]
    rfl
  | cons t fs ih =>
    have ht : t = timed_out := hall t (by simp)
    subst ht
    obtain ⟨q, k, out, ha, hq, -, hack⟩ := master_attempt_timed_out p l hp
    obtain ⟨hk, -⟩ := master_attempt_sound _ _ _ _ _ _ ha
    have hkpid : k.pid = 5 := by rw [hk]; exact hl
    rw [List.cons_append, attempt_acks_cons _ _ _ _ _ _ _ ha,
      ih (fun u hu => hall u (by simp [hu])) q k hq hkpid, hack]
    rfl

theorem pm_process_body_master (p : crdata) (l : pm_locals) (ts : List Turn)
    (hmode : p.mode = OPMODE_MASTER) :
    pm_process_body p l ts
      = master_loop ts { p with ack := false } { pid := (l.pid + 1) % 256, tx_attempt := 0 } := by
  simp [pm_process_body, hmode]

/-! ## Master retry discipline -/

/-- C6, as the code has it. In master mode with `radio_active` set, if the ack
wait for the current packet id fails `n` times and then succeeds, the pass of
`pm_process` returns having handed exactly `n + 1` packets to the transmit
thread, each decoding to type Data and to the same id `(pid + 1) mod 256`; the
32-bit attempt counter ends at `(n + 1) mod 2 ^ 32`; the state is acknowledged
and still a well-formed master state; and every packet of the following pass
carries the id after it, modulo 256. -/
theorem master_retry_discipline (p : crdata) (l : pm_locals) (fails : List Turn) (ok : Turn)
    (rest : List Turn) (hp : p.wf) (hmode : p.mode = OPMODE_MASTER)
    (hact : p.radio_active = true)
    (hwf : ∀ t ∈ fails ++ [ok], ∀ f ∈ t.wait.frames, f.wf)
    (hacks : attempt_acks (fails ++ [ok]) { p with ack := false }
        { pid := (l.pid + 1) % 256, tx_attempt := 0 }
      = some (List.replicate fails.length false ++ [true])) :
    ∃ q out, pm_process_body p l (fails ++ ok :: rest)
        = some (q, { pid := (l.pid + 1) % 256,
                     tx_attempt := (fails.length + 1) % 2 ^ 32 }, out, rest) ∧
      (sent_packets out).length = fails.length + 1 ∧
      (∀ s ∈ sent_packets out, ∃ hd, pm_dissemble_header s.1 = some hd ∧
        hd.type = PACKET_TYPE_DATA ∧ hd.pid = (l.pid + 1) % 256) ∧
      q.ack = true ∧ q.wf ∧ q.mode = OPMODE_MASTER ∧ q.radio_active = true ∧
      (∀ ts q2 l2 out2 rest2,
        pm_process_body q { pid := (l.pid + 1) % 256,
                            tx_attempt := (fails.length + 1) % 2 ^ 32 } ts
          = some (q2, l2, out2, rest2) →
        l2.pid = ((l.pid + 1) % 256 + 1) % 256 ∧
        ∀ s ∈ sent_packets out2, ∃ hd, pm_dissemble_header s.1 = some hd ∧
          hd.type = PACKET_TYPE_DATA ∧ hd.pid = ((l.pid + 1) % 256 + 1) % 256) := by
  have hp0 : ({ p with ack := false } : crdata).wf := hp
  obtain ⟨q, out, hl, hq, hqa, hqm, hqack, hcount⟩ :=
    master_loop_spec ok rest fails { p with ack := false }
      { pid := (l.pid + 1) % 256, tx_attempt := 0 } hp0 hact hwf hacks
  have hsmall : ∀ x : Nat, x % 256 % 65536 = x % 256 := fun x => by omega
  refine ⟨q, out, ?_, hcount, ?_, hqack, hq, hqm.trans hmode, hqa, ?_⟩
  · rw [pm_process_body_master p l _ hmode, hl]
    simp
  · intro s hs
    obtain ⟨hd, e1, e2, e3⟩ := (master_loop_sound _ _ _ _ _ _ _ hl).2 s hs
    exact ⟨hd, e1, e2, by rw [e3]; exact hsmall _⟩
  · intro ts q2 l2 out2 rest2 h2
    rw [pm_process_body_master q _ _ (hqm.trans hmode)] at h2
    obtain ⟨hk, hall⟩ := master_loop_sound _ _ _ _ _ _ _ h2
    refine ⟨hk, ?_⟩
    intro s hs
    obtain ⟨hd, e1, e2, e3⟩ := hall s hs
    exact ⟨hd, e1, e2, by rw [e3]; exact hsmall _⟩

/-- The first Ack for id 5 is dropped (the wait times out) and the second is
delivered: two Data packets with id 5, one retry, and the next id is 6. -/
theorem master_retry_discipline_witness :
    ∃ q out, pm_process_body (idle_state OPMODE_MASTER) { pid := 4, tx_attempt := 0 }
        ([timed_out] ++ delivered (valid_frame 5 PACKET_TYPE_ACK) :: [])
        = some (q, { pid := 5, tx_attempt := 2 }, out, []) ∧
      (sent_packets out).length = 2 ∧
      (∀ s ∈ sent_packets out, ∃ hd, pm_dissemble_header s.1 = some hd ∧
        hd.type = PACKET_TYPE_DATA ∧ hd.pid = 5) ∧
      q.ack = true ∧ q.wf ∧ q.mode = OPMODE_MASTER ∧ q.radio_active = true ∧
      (∀ ts q2 l2 out2 rest2,
        pm_process_body q { pid := 5, tx_attempt := 2 } ts = some (q2, l2, out2, rest2) →
        l2.pid = 6 ∧
        ∀ s ∈ sent_packets out2, ∃ hd, pm_dissemble_header s.1 = some hd ∧
          hd.type = PACKET_TYPE_DATA ∧ hd.pid = 6) :=
  master_retry_discipline (idle_state OPMODE_MASTER) { pid := 4, tx_attempt := 0 }
    [timed_out] (delivered (valid_frame 5 PACKET_TYPE_ACK)) [] (by decide) (by decide)
    (by decide) (by decide) (by decide)

/-- C6 as stated fails on the attempt counter: after 4294967295 timeouts and
then an Ack for id 5, the waits have failed 4294967295 times and then
succeeded, and `tx_attempt` has wrapped around to 0, not 4294967296. -/
theorem attempt_counter_wraps :
    attempt_acks
        (List.replicate 4294967295 timed_out ++ [delivered (valid_frame 5 PACKET_TYPE_ACK)])
        { idle_state OPMODE_MASTER with ack := false } { pid := (4 + 1) % 256, tx_attempt := 0 }
      = some (List.replicate 4294967295 false ++ [true]) ∧
    (pm_process_body (idle_state OPMODE_MASTER) { pid := 4, tx_attempt := 0 }
        (List.replicate 4294967295 timed_out
          ++ delivered (valid_frame 5 PACKET_TYPE_ACK) :: [])).map (fun r => r.2.1)
      = some { pid := 5, tx_attempt := 0 } := by
  have hlen : (List.replicate 4294967295 timed_out).length = 4294967295 :=
    List.length_replicate _ _
  have hacks := attempt_acks_timeouts (List.replicate 4294967295 timed_out)
    (fun t ht => List.eq_of_mem_replicate ht) { idle_state OPMODE_MASTER with ack := false }
    { pid := (4 + 1) % 256, tx_attempt := 0 } (by decide) rfl
  have hwf : ∀ t ∈ List.replicate 4294967295 timed_out
      ++ [delivered (valid_frame 5 PACKET_TYPE_ACK)], ∀ f ∈ t.wait.frames, f.wf := by
    intro t ht
    rcases List.mem_append.mp ht with h | h
    · rw [List.eq_of_mem_replicate h]
      decide
    · rw [List.mem_singleton.mp h]
      decide
  obtain ⟨q, out, hl, -⟩ := master_loop_spec (delivered (valid_frame 5 PACKET_TYPE_ACK)) []
    (List.replicate 4294967295 timed_out) { idle_state OPMODE_MASTER with ack := false }
    { pid := (4 + 1) % 256, tx_attempt := 0 } (by decide) rfl hwf hacks
  rw [hlen] at hacks hl
  refine ⟨hacks, ?_⟩
  rw [pm_process_body_master _ _ _ rfl, hl]
  rfl

/-! ## The slave -/

/-- Closed form of `pm_send_ack_packet` when the outbound header has room. -/
theorem pm_send_ack_packet_eq (p : crdata) (pid : Nat) (hb : 11 ≤ p.tx_header.length) :
    pm_send_ack_packet p pid
      = some ({ p with
                tx_pm_header := { p.tx_pm_header with pid := pid, type := PACKET_TYPE_ACK },
                tx_header := header_image
                    { p.tx_pm_header with pid := pid, type := PACKET_TYPE_ACK }
                  ++ p.tx_header.drop 11 },
          [Event.transmitting_ack pid,
           Event.tx_data_ready
            (header_image { p.tx_pm_header with pid := pid, type := PACKET_TYPE_ACK }
              ++ p.tx_header.drop 11) p.tx_payload]) := by
  simp only [pm_send_ack_packet, pm_assemble_header_image _ _ hb, Option.bind_eq_bind,
    Option.some_bind, List.singleton_append]

/-- Closed form of a slave pass in terms of the state `q1` the wait ends in. -/
theorem pm_process_body_slave (p q1 : crdata) (l : pm_locals) (t : Turn) (ts : List Turn)
    (o1 : List Event) (h : pm_header) (hmode : p.mode = OPMODE_SLAVE)
    (hr : receive t.wait.frames p = some (q1, o1))
    (hd : pm_dissemble_header q1.rx_header = some h) (hb : 11 ≤ q1.tx_header.length) :
    pm_process_body p l (t :: ts)
      = some ({ q1 with
                rx_pm_header := h,
                tx_pm_header := { q1.tx_pm_header with pid := h.pid, type := PACKET_TYPE_ACK },
                tx_header := header_image
                    { q1.tx_pm_header with pid := h.pid, type := PACKET_TYPE_ACK }
                  ++ q1.tx_header.drop 11 },
          l,
          o1 ++ [Event.pm_received_packet] ++ [Event.pm_packet_id h.pid]
            ++ [Event.transmitting_ack h.pid,
                Event.tx_data_ready
                  (header_image { q1.tx_pm_header with pid := h.pid, type := PACKET_TYPE_ACK }
                    ++ q1.tx_header.drop 11) q1.tx_payload],
          ts) := by
  have hm : ¬ OPMODE_SLAVE = OPMODE_MASTER := by decide
  simp [pm_process_body, hm, hmode, hr, hd, pm_send_ack_packet,
    pm_assemble_header_image _ _ hb]

/-- The outbound header after an Ack is sent decodes to an Ack with the id sent. -/
theorem ack_image_decodes (h0 : pm_header) (pid : Nat) (rest : List Nat) (hpid : pid < 65536) :
    ∃ a, pm_dissemble_header
        (header_image { h0 with pid := pid, type := PACKET_TYPE_ACK } ++ rest) = some a ∧
      a.type = PACKET_TYPE_ACK ∧ a.pid = pid :=
  ⟨_, pm_dissemble_header_image _ _, rfl, Nat.mod_eq_of_lt hpid⟩

theorem image_drop (h : pm_header) (rest : List Nat) :
    (header_image h ++ rest).drop 11 = rest :=
  List.drop_left' (header_image_length h)

/-- A slave pass on well-formed input, with the state it leaves spelled out. -/
theorem slave_pass (p : crdata) (l : pm_locals) (t : Turn) (ts : List Turn) (hp : p.wf)
    (hmode : p.mode = OPMODE_SLAVE) (ht : ∀ f ∈ t.wait.frames, f.wf) :
    ∃ q1 o1 h, receive t.wait.frames p = some (q1, o1) ∧ q1.wf ∧ same_outbound p q1 ∧
      pm_dissemble_header q1.rx_header = some h ∧ h.pid < 65536 ∧
      pm_process_body p l (t :: ts)
        = some ({ q1 with
                  rx_pm_header := h,
                  tx_pm_header :=
                    { q1.tx_pm_header with pid := h.pid, type := PACKET_TYPE_ACK },
                  tx_header := header_image
                      { q1.tx_pm_header with pid := h.pid, type := PACKET_TYPE_ACK }
                    ++ q1.tx_header.drop 11 },
            l,
            o1 ++ [Event.pm_received_packet] ++ [Event.pm_packet_id h.pid]
              ++ [Event.transmitting_ack h.pid,
                  Event.tx_data_ready
                    (header_image
                        { q1.tx_pm_header with pid := h.pid, type := PACKET_TYPE_ACK }
                      ++ q1.tx_header.drop 11) q1.tx_payload],
            ts) ∧
      sent_packets o1 = [] := by
  obtain ⟨q1, o1, hr, hq1, hso, ho1⟩ := receive_spec t.wait.frames p hp ht
  have hrx : 11 ≤ q1.rx_header.length := by
    rw [hq1.2.2.1.1]
    norm_num
  have htx : 11 ≤ q1.tx_header.length := by
    rw [hq1.1.1]
    norm_num
  obtain ⟨h, hd⟩ := pm_dissemble_header_some q1.rx_header hrx
  have hb := pm_dissemble_header_bounds _ _ hq1.2.2.1.2 hd
  exact ⟨q1, o1, h, hr, hq1, hso, hd, hb.2.2.2.2.1,
    pm_process_body_slave p q1 l t ts o1 h hmode hr hd htx, ho1⟩

/-- The state a slave pass leaves is well-formed. -/
theorem slave_state_wf (q1 : crdata) (h : pm_header) (pid : Nat) (hq1 : q1.wf) :
    ({ q1 with
        rx_pm_header := h,
        tx_pm_header := { q1.tx_pm_header with pid := pid, type := PACKET_TYPE_ACK },
        tx_header := header_image { q1.tx_pm_header with pid := pid, type := PACKET_TYPE_ACK }
          ++ q1.tx_header.drop 11 } : crdata).wf := by
  refine ⟨⟨?_, isBytes_image _ _ (isBytes_drop _ _ hq1.1.2)⟩, hq1.2.1, hq1.2.2.1, hq1.2.2.2⟩
  have h24 := hq1.1.1
  show (header_image _ ++ q1.tx_header.drop 11).length = 24
  rw [image_append_length _ _ (by omega), h24]

/-- The receive thread's part of an exchange that delivers one fully valid frame. -/
theorem receive_one_valid (f : RxFrame) (p : crdata) (hp : p.wf) (hf : f.wf)
    (hv : f.header_valid ≠ 0) (pv : f.payload_valid ≠ 0) :
    ∃ h, pm_dissemble_header f.header = some h ∧
      pm_dissemble_header (f.header.take 24) = some h ∧
      receive [f] p
        = some ({ p with num_rx_packets := (p.num_rx_packets + 1) % 2 ^ 32,
                         num_valid_rx_packets := (p.num_valid_rx_packets + 1) % 2 ^ 32,
                         rx_header := f.header.take 24,
                         rx_payload := f.payload.take 64,
                         rx_header_valid := true,
                         rx_payload_valid := true,
                         rx_pm_header := h },
            [Event.callback_invoked ((p.num_valid_rx_packets + 1) % 2 ^ 32)
               ((p.num_rx_packets + 1) % 2 ^ 32),
             Event.callback_packet_id h.pid, Event.rx_data_ready]) := by
  obtain ⟨h, hd, hc⟩ := callback_valid f.header f.payload f.header_valid f.payload_valid
    hv pv p hf.1.1 hf.2.1 hp.2.2.1.1 hp.2.2.2.1
  have h11 : 11 ≤ f.header.length := by
    have := hf.1.1
    omega
  refine ⟨h, hd, ?_, ?_⟩
  · rw [pm_dissemble_header_take _ h11 24 (by norm_num), hd]
  · simp only [receive, hc, Option.bind_eq_bind, Option.some_bind, List.append_nil]

/-- A slave pass whose wait delivers exactly one fully valid frame `f`: the
state it leaves, written out from the state `p` before. -/
theorem slave_exchange (p : crdata) (l : pm_locals) (t : Turn) (ts : List Turn) (f : RxFrame)
    (hp : p.wf) (hmode : p.mode = OPMODE_SLAVE) (hf : t.wait.frames = [f]) (fwf : f.wf)
    (hv : f.header_valid ≠ 0) (pv : f.payload_valid ≠ 0) :
    ∃ h out, pm_dissemble_header f.header = some h ∧ h.pid < 65536 ∧
      pm_process_body p l (t :: ts)
        = some ({ p with
                  num_rx_packets := (p.num_rx_packets + 1) % 2 ^ 32,
                  num_valid_rx_packets := (p.num_valid_rx_packets + 1) % 2 ^ 32,
                  rx_header := f.header.take 24,
                  rx_payload := f.payload.take 64,
                  rx_header_valid := true,
                  rx_payload_valid := true,
                  rx_pm_header := h,
                  tx_pm_header := { p.tx_pm_header with pid := h.pid, type := PACKET_TYPE_ACK },
                  tx_header := header_image
                      { p.tx_pm_header with pid := h.pid, type := PACKET_TYPE_ACK }
                    ++ p.tx_header.drop 11 },
            l, out, ts) ∧
      sent_packets out
        = [(header_image { p.tx_pm_header with pid := h.pid, type := PACKET_TYPE_ACK }
              ++ p.tx_header.drop 11, p.tx_payload)] := by
  obtain ⟨h, hd, hd24, hr⟩ := receive_one_valid f p hp fwf hv pv
  have hb := pm_dissemble_header_bounds _ _ fwf.1.2 hd
  have htx : 11 ≤ p.tx_header.length := by
    rw [hp.1.1]
    norm_num
  rw [← hf] at hr
  have hbody := pm_process_body_slave p _ l t ts _ h hmode hr hd24 htx
  refine ⟨h, _, hd, hb.2.2.2.2.1, hbody, ?_⟩
  simp [sent_packets_append, sent_packets]

/-- Writing back what a state already holds does not change it. -/
theorem crdata_update_eq (q : crdata) (n1 n2 : Nat) (rh rp tb : List Nat) (g th : pm_header)
    (h1 : q.rx_header_valid = true) (h2 : q.rx_payload_valid = true)
    (h3 : th = q.tx_pm_header) (h4 : tb = q.tx_header) :
    ({ q with num_rx_packets := n1, num_valid_rx_packets := n2, rx_header := rh,
              rx_payload := rp, rx_header_valid := true, rx_payload_valid := true,
              rx_pm_header := g, tx_pm_header := th, tx_header := tb } : crdata)
      = { q with num_rx_packets := n1, num_valid_rx_packets := n2, rx_header := rh,
                 rx_payload := rp, rx_pm_header := g } := by
  subst h3 h4
  cases q
  simp only at h1 h2
  subst h1 h2
  rfl

/-! ## Slave acknowledgment -/

/-- C7, as the code has it. In slave mode every wake-up of the packet manager
on well-formed input ends with exactly one packet handed to the transmit
thread: the outbound slot, whose header decodes to type `PACKET_TYPE_ACK` and
to the packet id decoded from the inbound header.  When the wait delivers one
valid frame with id 7 and the next wait delivers another valid frame with id
7, the outbound header is an Ack for id 7 after each, and the second exchange
leaves the state of the first except that both receive counters advance by
one (modulo `2 ^ 32`) and the inbound slot holds the second frame; for a
byte-identical duplicate only the two counters differ. -/
theorem slave_acknowledges (p : crdata) (l : pm_locals) (t : Turn) (ts : List Turn)
    (hp : p.wf) (hmode : p.mode = OPMODE_SLAVE) (ht : ∀ f ∈ t.wait.frames, f.wf) :
    ∃ q out h a, pm_process_body p l (t :: ts) = some (q, l, out, ts) ∧
      sent_packets out = [(q.tx_header, q.tx_payload)] ∧
      pm_dissemble_header q.rx_header = some h ∧ q.rx_pm_header = h ∧
      pm_dissemble_header q.tx_header = some a ∧
      a.type = PACKET_TYPE_ACK ∧ a.pid = h.pid ∧
      q.wf ∧ q.mode = OPMODE_SLAVE ∧
      ∀ (f1 f2 : RxFrame) (t2 : Turn) (ts2 : List Turn),
        t.wait.frames = [f1] → t2.wait.frames = [f2] →
        f1.header_valid ≠ 0 → f1.payload_valid ≠ 0 →
        f2.header_valid ≠ 0 → f2.payload_valid ≠ 0 → f2.wf →
        (∃ h1, pm_dissemble_header f1.header = some h1 ∧ h1.pid = 7) →
        (∃ h2, pm_dissemble_header f2.header = some h2 ∧ h2.pid = 7) →
        a.pid = 7 ∧
        ∃ q2 out2 h2 a2, pm_process_body q l (t2 :: ts2) = some (q2, l, out2, ts2) ∧
          sent_packets out2 = [(q2.tx_header, q2.tx_payload)] ∧
          pm_dissemble_header f2.header = some h2 ∧
          pm_dissemble_header q2.tx_header = some a2 ∧
          a2.type = PACKET_TYPE_ACK ∧ a2.pid = 7 ∧
          q2 = { q with num_rx_packets := (q.num_rx_packets + 1) % 2 ^ 32,
                        num_valid_rx_packets := (q.num_valid_rx_packets + 1) % 2 ^ 32,
                        rx_header := f2.header.take 24,
                        rx_payload := f2.payload.take 64,
                        rx_pm_header := h2 } ∧
          (f2 = f1 →
            q2 = { q with num_rx_packets := (q.num_rx_packets + 1) % 2 ^ 32,
                          num_valid_rx_packets := (q.num_valid_rx_packets + 1) % 2 ^ 32 }) := by
  obtain ⟨q1, o1, h, hr, hq1, hso, hd, hlt, hbody, ho1⟩ := slave_pass p l t ts hp hmode ht
  obtain ⟨a, had, hat, hap⟩ := ack_image_decodes q1.tx_pm_header h.pid (q1.tx_header.drop 11) hlt
  have hqwf := slave_state_wf q1 h h.pid hq1
  obtain ⟨q, hqdef⟩ : ∃ q : crdata, q = { q1 with
      rx_pm_header := h,
      tx_pm_header := { q1.tx_pm_header with pid := h.pid, type := PACKET_TYPE_ACK },
      tx_header := header_image { q1.tx_pm_header with pid := h.pid, type := PACKET_TYPE_ACK }
        ++ q1.tx_header.drop 11 } := ⟨_, rfl⟩
  rw [← hqdef] at hbody hqwf
  have hqmode : q.mode = OPMODE_SLAVE := by
    rw [hqdef]
    exact hso.2.1.trans hmode
  refine ⟨q, _, h, a, hbody, ?_, ?_, ?_, ?_, hat, hap, hqwf, hqmode, ?_⟩
  · rw [hqdef]
    simp [sent_packets_append, sent_packets, ho1]
  · rw [hqdef]
    exact hd
  · rw [hqdef]
  · rw [hqdef]
    exact had
  · intro f1 f2 t2 ts2 hf1 hf2 hv1 pv1 hv2 pv2 hwf2 h71 h72
    obtain ⟨h1, hd1, hp1⟩ := h71
    obtain ⟨h2, hd2, hp2⟩ := h72
    have hwf1 : f1.wf := ht f1 (by rw [hf1]; simp)
    obtain ⟨g1, oA, hg1, -, hb1, -⟩ := slave_exchange p l t ts f1 hp hmode hf1 hwf1 hv1 pv1
    have e1 : g1 = h1 := Option.some.inj (hg1.symm.trans hd1)
    subst e1
    rw [hbody] at hb1
    simp only [Option.some.injEq, Prod.mk.injEq, true_and, and_true] at hb1
    obtain ⟨hq, -⟩ := hb1
    have hpid : h.pid = 7 := by
      have e : q.rx_pm_header = h := by rw [hqdef]
      rw [hq] at e
      rw [← e]
      exact hp1
    obtain ⟨g2, oB, hg2, hg2lt, hb2, hs2⟩ :=
      slave_exchange q l t2 ts2 f2 hqwf hqmode hf2 hwf2 hv2 pv2
    have e2 : g2 = h2 := Option.some.inj (hg2.symm.trans hd2)
    subst e2
    obtain ⟨a2, had2, hat2, hap2⟩ :=
      ack_image_decodes q.tx_pm_header g2.pid (q.tx_header.drop 11) hg2lt
    have htxh : q.tx_pm_header = { q.tx_pm_header with pid := g2.pid, type := PACKET_TYPE_ACK } := by
      rw [hq, hp1, hp2]
    have htx : header_image { q.tx_pm_header with pid := g2.pid, type := PACKET_TYPE_ACK }
        ++ q.tx_header.drop 11 = q.tx_header := by
      rw [← htxh]
      rw [hq, hp1]
      simp only [image_drop]
    have hflags : q.rx_header_valid = true ∧ q.rx_payload_valid = true := by
      rw [hq]
      exact ⟨rfl, rfl⟩
    have hstate := crdata_update_eq q ((q.num_rx_packets + 1) % 2 ^ 32)
      ((q.num_valid_rx_packets + 1) % 2 ^ 32) (f2.header.take 24) (f2.payload.take 64)
      (header_image { q.tx_pm_header with pid := g2.pid, type := PACKET_TYPE_ACK }
        ++ q.tx_header.drop 11) g2
      { q.tx_pm_header with pid := g2.pid, type := PACKET_TYPE_ACK }
      hflags.1 hflags.2 htxh.symm htx
    refine ⟨by rw [hap, hpid], _, oB, g2, a2, hb2, hs2, hg2, had2, hat2, by rw [hap2, hp2],
      hstate, ?_⟩
    intro hsame
    subst hsame
    rw [hstate]
    have e3 : g2 = g1 := Option.some.inj (hg2.symm.trans hg1)
    subst e3
    have hrh : q.rx_header = f2.header.take 24 := by rw [hq]
    have hrp : q.rx_payload = f2.payload.take 64 := by rw [hq]
    have hrm : q.rx_pm_header = g2 := by rw [hq]
    rw [← hrh, ← hrp, ← hrm]

theorem slave_acknowledges_witness :
    ∃ q out h a, pm_process_body (idle_state OPMODE_SLAVE) { pid := 0, tx_attempt := 0 }
        (delivered (valid_frame 7 PACKET_TYPE_DATA) :: [delivered (valid_frame 7 PACKET_TYPE_DATA)])
        = some (q, { pid := 0, tx_attempt := 0 }, out,
            [delivered (valid_frame 7 PACKET_TYPE_DATA)]) ∧
      sent_packets out = [(q.tx_header, q.tx_payload)] ∧
      pm_dissemble_header q.rx_header = some h ∧ q.rx_pm_header = h ∧
      pm_dissemble_header q.tx_header = some a ∧
      a.type = PACKET_TYPE_ACK ∧ a.pid = h.pid ∧
      q.wf ∧ q.mode = OPMODE_SLAVE ∧
      ∀ (f1 f2 : RxFrame) (t2 : Turn) (ts2 : List Turn),
        (delivered (valid_frame 7 PACKET_TYPE_DATA)).wait.frames = [f1] →
        t2.wait.frames = [f2] →
        f1.header_valid ≠ 0 → f1.payload_valid ≠ 0 →
        f2.header_valid ≠ 0 → f2.payload_valid ≠ 0 → f2.wf →
        (∃ h1, pm_dissemble_header f1.header = some h1 ∧ h1.pid = 7) →
        (∃ h2, pm_dissemble_header f2.header = some h2 ∧ h2.pid = 7) →
        a.pid = 7 ∧
        ∃ q2 out2 h2 a2, pm_process_body q { pid := 0, tx_attempt := 0 } (t2 :: ts2)
            = some (q2, { pid := 0, tx_attempt := 0 }, out2, ts2) ∧
          sent_packets out2 = [(q2.tx_header, q2.tx_payload)] ∧
          pm_dissemble_header f2.header = some h2 ∧
          pm_dissemble_header q2.tx_header = some a2 ∧
          a2.type = PACKET_TYPE_ACK ∧ a2.pid = 7 ∧
          q2 = { q with num_rx_packets := (q.num_rx_packets + 1) % 2 ^ 32,
                        num_valid_rx_packets := (q.num_valid_rx_packets + 1) % 2 ^ 32,
                        rx_header := f2.header.take 24,
                        rx_payload := f2.payload.take 64,
                        rx_pm_header := h2 } ∧
          (f2 = f1 →
            q2 = { q with num_rx_packets := (q.num_rx_packets + 1) % 2 ^ 32,
                          num_valid_rx_packets := (q.num_valid_rx_packets + 1) % 2 ^ 32 }) :=
  slave_acknowledges (idle_state OPMODE_SLAVE) { pid := 0, tx_attempt := 0 }
    (delivered (valid_frame 7 PACKET_TYPE_DATA)) [delivered (valid_frame 7 PACKET_TYPE_DATA)]
    (by decide) (by decide) (by decide)

/-- C7 as stated fails on the last part: the slave receives the same valid
Data frame with id 7 twice; the state after the second exchange differs from
the state after the first, the receive counters being 2/2 instead of 1/1. -/
theorem duplicate_advances_counters :
    (pm_process 1 (idle_state OPMODE_SLAVE) { pid := 0, tx_attempt := 0 }
        [delivered (valid_frame 7 PACKET_TYPE_DATA),
         delivered (valid_frame 7 PACKET_TYPE_DATA)]).map
        (fun r => (r.1.num_rx_packets, r.1.num_valid_rx_packets)) = some (1, 1) ∧
    (pm_process 2 (idle_state OPMODE_SLAVE) { pid := 0, tx_attempt := 0 }
        [delivered (valid_frame 7 PACKET_TYPE_DATA),
         delivered (valid_frame 7 PACKET_TYPE_DATA)]).map
        (fun r => (r.1.num_rx_packets, r.1.num_valid_rx_packets)) = some (2, 2) ∧
    (pm_process 2 (idle_state OPMODE_SLAVE) { pid := 0, tx_attempt := 0 }
        [delivered (valid_frame 7 PACKET_TYPE_DATA),
         delivered (valid_frame 7 PACKET_TYPE_DATA)]).map (fun r => r.1)
      ≠ (pm_process 1 (idle_state OPMODE_SLAVE) { pid := 0, tx_attempt := 0 }
        [delivered (valid_frame 7 PACKET_TYPE_DATA),
         delivered (valid_frame 7 PACKET_TYPE_DATA)]).map (fun r => r.1) := by
  decide

/-! ## Receive counters -/

/-- The two counters after one `callback` on well-formed input. -/
theorem callback_counters (f : RxFrame) (p : crdata) (hp : p.wf) (hf : f.wf) :
    ∃ q out, callback f.header f.header_valid f.payload f.payload_valid p = some (q, out) ∧
      q.wf ∧ q.num_rx_packets = (p.num_rx_packets + 1) % 2 ^ 32 ∧
      q.num_valid_rx_packets
        = if f.fully_valid then (p.num_valid_rx_packets + 1) % 2 ^ 32
          else p.num_valid_rx_packets := by
  obtain ⟨q, out, hc, hq, -, -⟩ := callback_spec f p hp hf
  refine ⟨q, out, hc, hq, ?_, ?_⟩
  · by_cases hv : f.header_valid = 0
    · rw [hv, callback_header_invalid] at hc
      simp only [Option.some.injEq, Prod.mk.injEq] at hc
      rw [← hc.1]
    · by_cases pv : f.payload_valid = 0
      · rw [pv, callback_payload_invalid _ _ _ hv] at hc
        simp only [Option.some.injEq, Prod.mk.injEq] at hc
        rw [← hc.1]
      · obtain ⟨h, -, hc2⟩ := callback_valid f.header f.payload f.header_valid
          f.payload_valid hv pv p hf.1.1 hf.2.1 hp.2.2.1.1 hp.2.2.2.1
        rw [hc2] at hc
        simp only [Option.some.injEq, Prod.mk.injEq] at hc
        rw [← hc.1]
  · by_cases hv : f.header_valid = 0
    · rw [hv, callback_header_invalid] at hc
      simp only [Option.some.injEq, Prod.mk.injEq] at hc
      rw [← hc.1]
      simp [RxFrame.fully_valid, hv]
    · by_cases pv : f.payload_valid = 0
      · rw [pv, callback_payload_invalid _ _ _ hv] at hc
        simp only [Option.some.injEq, Prod.mk.injEq] at hc
        rw [← hc.1]
        simp [RxFrame.fully_valid, pv]
      · obtain ⟨h, -, hc2⟩ := callback_valid f.header f.payload f.header_valid
          f.payload_valid hv pv p hf.1.1 hf.2.1 hp.2.2.1.1 hp.2.2.2.1
        rw [hc2] at hc
        simp only [Option.some.injEq, Prod.mk.injEq] at hc
        rw [← hc.1]
        simp [RxFrame.fully_valid, hv, pv]

theorem receive_snoc (fs : List RxFrame) (f : RxFrame) (p q q2 : crdata) (o o2 : List Event)
    (hr : receive fs p = some (q, o))
    (hc : callback f.header f.header_valid f.payload f.payload_valid q = some (q2, o2)) :
    receive (fs ++ [f]) p = some (q2, o ++ o2) := by
  induction fs generalizing p o with
  | nil =>
    simp only [receive, Option.some.injEq, Prod.mk.injEq] at hr
    obtain ⟨hp, ho⟩ := hr
    subst hp ho
    simp [receive, hc]
  | cons g gs ih =>
    simp only [receive, Option.bind_eq_bind, Option.bind_eq_some, Option.some.injEq,
      Prod.mk.injEq, Prod.exists] at hr
    obtain ⟨q1, o1, hg, q3, o3, hgs, hq3, ho⟩ := hr
    subst hq3 ho
    have := ih q1 o3 hgs
    simp [receive, hg, this]

/-- Counting without overflow: after a sequence of frames the counters have
grown by the number of frames and by the number of fully valid frames. -/
theorem receive_counts (fs : List RxFrame) (p : crdata) (hp : p.wf)
    (hfs : ∀ g ∈ fs, g.wf) (hle : p.num_valid_rx_packets ≤ p.num_rx_packets)
    (hno : p.num_rx_packets + fs.length < 2 ^ 32) :
    ∃ q o, receive fs p = some (q, o) ∧ q.wf ∧
      q.num_rx_packets = p.num_rx_packets + fs.length ∧
      q.num_valid_rx_packets = p.num_valid_rx_packets + fs.countP RxFrame.fully_valid := by
  induction fs generalizing p with
  | nil => exact ⟨p, [], rfl, hp, rfl, rfl⟩
  | cons f fs ih =>
    obtain ⟨q1, o1, hc, hq1, hn, hv⟩ := callback_counters f p hp (hfs f (by simp))
    simp only [List.length_cons] at hno
    have hn1 : q1.num_rx_packets = p.num_rx_packets + 1 := by
      rw [hn]
      exact Nat.mod_eq_of_lt (by omega)
    have hv1 : q1.num_valid_rx_packets
        = p.num_valid_rx_packets + (if f.fully_valid then 1 else 0) := by
      rw [hv]
      split
      · exact Nat.mod_eq_of_lt (by omega)
      · rfl
    have hle1 : q1.num_valid_rx_packets ≤ q1.num_rx_packets := by
      rw [hn1, hv1]
      split <;> omega
    obtain ⟨q, o, hr, hq, hqn, hqv⟩ := ih q1 hq1 (fun g hg => hfs g (by simp [hg])) hle1
      (by rw [hn1]; omega)
    refine ⟨q, o1 ++ o, ?_, hq, ?_, ?_⟩
    · simp [receive, hc, hr]
    · rw [hqn, hn1, List.length_cons]
      omega
    · rw [hqv, hv1, List.countP_cons]
      cases hfv : f.fully_valid <;> simp only [if_true, if_false, Bool.false_eq_true] <;> omega

/-- C12, as the code has it. Every `callback` invocation on well-formed input
returns and sets the 32-bit counter `num_rx_packets` to its old value plus 1
modulo `2 ^ 32`, and `num_valid_rx_packets` to its old value plus 1 modulo
`2 ^ 32` when `header_valid` and `payload_valid` are both non-zero and leaves
it unchanged otherwise; the step is an increase by exactly 1 whenever the
counter is below `2 ^ 32 - 1`.  Hence, counting without overflow from the
initial state 0/0, after any sequence of invocations the first counter is the
number of frames and the second the number of fully valid frames, and with one
more invocation neither counter decreases and the valid count stays at most
the total count. -/
theorem receive_counters (p : crdata) (fs : List RxFrame) (f : RxFrame) (hp : p.wf)
    (h0 : p.num_rx_packets = 0) (h0v : p.num_valid_rx_packets = 0)
    (hfs : ∀ g ∈ fs ++ [f], g.wf) (hno : fs.length + 1 < 2 ^ 32) :
    (∀ s : crdata, s.wf →
      ∃ s2 o, callback f.header f.header_valid f.payload f.payload_valid s = some (s2, o) ∧
        s2.num_rx_packets = (s.num_rx_packets + 1) % 2 ^ 32 ∧
        s2.num_valid_rx_packets
          = (if f.header_valid ≠ 0 ∧ f.payload_valid ≠ 0 then
              (s.num_valid_rx_packets + 1) % 2 ^ 32
            else s.num_valid_rx_packets) ∧
        (s.num_rx_packets + 1 < 2 ^ 32 → s2.num_rx_packets = s.num_rx_packets + 1) ∧
        (s.num_valid_rx_packets + 1 < 2 ^ 32 →
          s2.num_valid_rx_packets
            = s.num_valid_rx_packets
              + (if f.header_valid ≠ 0 ∧ f.payload_valid ≠ 0 then 1 else 0))) ∧
    ∃ q o q2 o2, receive fs p = some (q, o) ∧
      callback f.header f.header_valid f.payload f.payload_valid q = some (q2, o2) ∧
      receive (fs ++ [f]) p = some (q2, o ++ o2) ∧
      q.num_rx_packets = fs.length ∧
      q.num_valid_rx_packets = fs.countP RxFrame.fully_valid ∧
      q.num_valid_rx_packets ≤ q.num_rx_packets ∧
      q2.num_rx_packets = q.num_rx_packets + 1 ∧
      q2.num_valid_rx_packets
        = q.num_valid_rx_packets + (if f.header_valid ≠ 0 ∧ f.payload_valid ≠ 0 then 1 else 0) ∧
      q.num_rx_packets ≤ q2.num_rx_packets ∧
      q.num_valid_rx_packets ≤ q2.num_valid_rx_packets ∧
      q2.num_valid_rx_packets ≤ q2.num_rx_packets := by
  have hf : f.wf := hfs f (by simp)
  have hstep : ∀ s : crdata, s.wf →
      ∃ s2 o, callback f.header f.header_valid f.payload f.payload_valid s = some (s2, o) ∧
        s2.num_rx_packets = (s.num_rx_packets + 1) % 2 ^ 32 ∧
        s2.num_valid_rx_packets
          = (if f.header_valid ≠ 0 ∧ f.payload_valid ≠ 0 then
              (s.num_valid_rx_packets + 1) % 2 ^ 32
            else s.num_valid_rx_packets) ∧
        (s.num_rx_packets + 1 < 2 ^ 32 → s2.num_rx_packets = s.num_rx_packets + 1) ∧
        (s.num_valid_rx_packets + 1 < 2 ^ 32 →
          s2.num_valid_rx_packets
            = s.num_valid_rx_packets
              + (if f.header_valid ≠ 0 ∧ f.payload_valid ≠ 0 then 1 else 0)) := by
    intro s hs
    obtain ⟨s2, o, hc, -, hn, hv⟩ := callback_counters f s hs hf
    have hv' : s2.num_valid_rx_packets
        = (if f.header_valid ≠ 0 ∧ f.payload_valid ≠ 0 then
            (s.num_valid_rx_packets + 1) % 2 ^ 32
          else s.num_valid_rx_packets) := by
      rw [hv]
      by_cases hb : f.header_valid ≠ 0 ∧ f.payload_valid ≠ 0
      · have hfv : f.fully_valid = true := by simp [RxFrame.fully_valid, hb]
        rw [hfv, if_pos rfl, if_pos hb]
      · have hfv : f.fully_valid = false := by
          simp only [RxFrame.fully_valid, decide_eq_false_iff_not]
          exact hb
        rw [hfv, if_neg hb]
        rfl
    refine ⟨s2, o, hc, hn, hv', ?_, ?_⟩
    · intro h1
      rw [hn]
      exact Nat.mod_eq_of_lt h1
    · intro h2
      rw [hv']
      by_cases hb : f.header_valid ≠ 0 ∧ f.payload_valid ≠ 0
      · rw [if_pos hb, if_pos hb]
        exact Nat.mod_eq_of_lt h2
      · rw [if_neg hb, if_neg hb]
        rfl
  refine ⟨hstep, ?_⟩
  obtain ⟨q, o, hr, hq, hqn, hqv⟩ := receive_counts fs p hp
    (fun g hg => hfs g (by simp [hg])) (by rw [h0, h0v]) (by rw [h0]; omega)
  rw [h0, Nat.zero_add] at hqn
  rw [h0v, Nat.zero_add] at hqv
  have hcount : fs.countP RxFrame.fully_valid ≤ fs.length := List.countP_le_length _
  obtain ⟨q2, o2, hc, -, -, hn2, hv2⟩ := hstep q hq
  have hn2 := hn2 (by rw [hqn]; exact hno)
  have hv2 := hv2 (by rw [hqv]; omega)
  refine ⟨q, o, q2, o2, hr, hc, receive_snoc fs f p q q2 o o2 hr hc, hqn, hqv, ?_, hn2, hv2,
    ?_, ?_, ?_⟩
  · rw [hqn, hqv]
    exact hcount
  · rw [hn2]
    omega
  · rw [hv2]
    omega
  · rw [hn2, hv2, hqn, hqv]
    split <;> omega

theorem receive_counters_witness :
    (∀ s : crdata, s.wf →
      ∃ s2 o, callback (valid_frame 9 PACKET_TYPE_ACK).header
          (valid_frame 9 PACKET_TYPE_ACK).header_valid (valid_frame 9 PACKET_TYPE_ACK).payload
          (valid_frame 9 PACKET_TYPE_ACK).payload_valid s = some (s2, o) ∧
        s2.num_rx_packets = (s.num_rx_packets + 1) % 2 ^ 32 ∧
        s2.num_valid_rx_packets
          = (if (valid_frame 9 PACKET_TYPE_ACK).header_valid ≠ 0 ∧
                (valid_frame 9 PACKET_TYPE_ACK).payload_valid ≠ 0 then
              (s.num_valid_rx_packets + 1) % 2 ^ 32
            else s.num_valid_rx_packets) ∧
        (s.num_rx_packets + 1 < 2 ^ 32 → s2.num_rx_packets = s.num_rx_packets + 1) ∧
        (s.num_valid_rx_packets + 1 < 2 ^ 32 →
          s2.num_valid_rx_packets
            = s.num_valid_rx_packets
              + (if (valid_frame 9 PACKET_TYPE_ACK).header_valid ≠ 0 ∧
                    (valid_frame 9 PACKET_TYPE_ACK).payload_valid ≠ 0 then 1 else 0))) ∧
    ∃ q o q2 o2,
      receive [valid_frame 7 PACKET_TYPE_DATA,
               { valid_frame 8 PACKET_TYPE_DATA with payload_valid := 0 }]
          (idle_state OPMODE_SLAVE) = some (q, o) ∧
      callback (valid_frame 9 PACKET_TYPE_ACK).header
          (valid_frame 9 PACKET_TYPE_ACK).header_valid (valid_frame 9 PACKET_TYPE_ACK).payload
          (valid_frame 9 PACKET_TYPE_ACK).payload_valid q = some (q2, o2) ∧
      receive ([valid_frame 7 PACKET_TYPE_DATA,
                { valid_frame 8 PACKET_TYPE_DATA with payload_valid := 0 }]
          ++ [valid_frame 9 PACKET_TYPE_ACK]) (idle_state OPMODE_SLAVE) = some (q2, o ++ o2) ∧
      q.num_rx_packets = [valid_frame 7 PACKET_TYPE_DATA,
               { valid_frame 8 PACKET_TYPE_DATA with payload_valid := 0 }].length ∧
      q.num_valid_rx_packets = [valid_frame 7 PACKET_TYPE_DATA,
               { valid_frame 8 PACKET_TYPE_DATA with payload_valid := 0 }].countP
                 RxFrame.fully_valid ∧
      q.num_valid_rx_packets ≤ q.num_rx_packets ∧
      q2.num_rx_packets = q.num_rx_packets + 1 ∧
      q2.num_valid_rx_packets
        = q.num_valid_rx_packets
          + (if (valid_frame 9 PACKET_TYPE_ACK).header_valid ≠ 0 ∧
                (valid_frame 9 PACKET_TYPE_ACK).payload_valid ≠ 0 then 1 else 0) ∧
      q.num_rx_packets ≤ q2.num_rx_packets ∧
      q.num_valid_rx_packets ≤ q2.num_valid_rx_packets ∧
      q2.num_valid_rx_packets ≤ q2.num_rx_packets :=
  receive_counters (idle_state OPMODE_SLAVE)
    [valid_frame 7 PACKET_TYPE_DATA, { valid_frame 8 PACKET_TYPE_DATA with payload_valid := 0 }]
    (valid_frame 9 PACKET_TYPE_ACK) (by decide) rfl rfl (by decide) (by decide)

/-- C12 as stated fails at the top of the counter range: with both counters
at 4294967295 a fully valid frame leaves them at 0/0, so this invocation does
not increase either counter by 1, and both counters have decreased. -/
theorem callback_counters_wrap :
    ({ idle_state OPMODE_SLAVE with num_rx_packets := 4294967295,
                                    num_valid_rx_packets := 4294967295 } : crdata).wf ∧
    (valid_frame 7 PACKET_TYPE_DATA).wf ∧
    (callback (valid_frame 7 PACKET_TYPE_DATA).header
        (valid_frame 7 PACKET_TYPE_DATA).header_valid
        (valid_frame 7 PACKET_TYPE_DATA).payload
        (valid_frame 7 PACKET_TYPE_DATA).payload_valid
        { idle_state OPMODE_SLAVE with num_rx_packets := 4294967295,
                                       num_valid_rx_packets := 4294967295 }).map
        (fun r => (r.1.num_rx_packets, r.1.num_valid_rx_packets)) = some (0, 0) := by
  decide

/-! ## The slave and the frame type -/

/-- C13. The slave's response does not depend on the type of the received
frame: when two wake-ups of the slave from the same state end with inbound
headers that differ only in the `type` field, both passes return and leave the
same outbound slot, which is the one packet handed to the transmit thread and
decodes to an Ack for the received packet id, whatever the received type is. -/
theorem slave_ack_ignores_type (p : crdata) (l : pm_locals) (t1 t2 : Turn)
    (ts1 ts2 : List Turn) (s1 s2 : crdata) (o1 o2 : List Event) (h1 h2 : pm_header)
    (hp : p.wf) (hmode : p.mode = OPMODE_SLAVE)
    (ht1 : ∀ f ∈ t1.wait.frames, f.wf) (ht2 : ∀ f ∈ t2.wait.frames, f.wf)
    (hr1 : receive t1.wait.frames p = some (s1, o1))
    (hr2 : receive t2.wait.frames p = some (s2, o2))
    (hd1 : pm_dissemble_header s1.rx_header = some h1)
    (hd2 : pm_dissemble_header s2.rx_header = some h2)
    (hdiff : { h1 with type := h2.type } = h2) :
    ∃ q1 out1 q2 out2 a,
      pm_process_body p l (t1 :: ts1) = some (q1, l, out1, ts1) ∧
      pm_process_body p l (t2 :: ts2) = some (q2, l, out2, ts2) ∧
      q1.rx_pm_header = h1 ∧ q2.rx_pm_header = h2 ∧
      q1.tx_header = q2.tx_header ∧ q1.tx_payload = q2.tx_payload ∧
      q1.tx_pm_header = q2.tx_pm_header ∧
      sent_packets out1 = [(q1.tx_header, q1.tx_payload)] ∧
      sent_packets out2 = [(q2.tx_header, q2.tx_payload)] ∧
      pm_dissemble_header q1.tx_header = some a ∧
      a.type = PACKET_TYPE_ACK ∧ a.pid = h1.pid ∧ a.pid = h2.pid := by
  obtain ⟨r1, u1, g1, hr1', hw1, hso1, hg1, hlt1, hb1, hu1⟩ :=
    slave_pass p l t1 ts1 hp hmode ht1
  obtain ⟨r2, u2, g2, hr2', hw2, hso2, hg2, hlt2, hb2, hu2⟩ :=
    slave_pass p l t2 ts2 hp hmode ht2
  rw [hr1] at hr1'
  rw [hr2] at hr2'
  simp only [Option.some.injEq, Prod.mk.injEq] at hr1' hr2'
  obtain ⟨e1, e1'⟩ := hr1'
  obtain ⟨e2, e2'⟩ := hr2'
  subst e1 e1' e2 e2'
  have eg1 : g1 = h1 := Option.some.inj (hg1.symm.trans hd1)
  have eg2 : g2 = h2 := Option.some.inj (hg2.symm.trans hd2)
  subst eg1 eg2
  have hpid : g1.pid = g2.pid := by
    rw [← hdiff]
  have htxh : s1.tx_pm_header = s2.tx_pm_header := hso1.2.2.2.2.2.2.trans hso2.2.2.2.2.2.2.symm
  have htx : s1.tx_header = s2.tx_header := hso1.2.2.2.1.trans hso2.2.2.2.1.symm
  have htp : s1.tx_payload = s2.tx_payload := hso1.2.2.2.2.1.trans hso2.2.2.2.2.1.symm
  obtain ⟨a, had, hat, hap⟩ :=
    ack_image_decodes s1.tx_pm_header g1.pid (s1.tx_header.drop 11) hlt1
  refine ⟨_, _, _, _, a, hb1, hb2, rfl, rfl, ?_, htp, ?_, ?_, ?_, had, hat, hap,
    hap.trans hpid⟩
  · show header_image _ ++ _ = header_image _ ++ _
    rw [htxh, htx, hpid]
  · show ({ s1.tx_pm_header with pid := g1.pid, type := PACKET_TYPE_ACK } : pm_header)
      = { s2.tx_pm_header with pid := g2.pid, type := PACKET_TYPE_ACK }
    rw [htxh, hpid]
  · simp [sent_packets_append, sent_packets, hu1]
  · simp [sent_packets_append, sent_packets, hu2]

theorem slave_ack_ignores_type_witness :
    ∃ q1 out1 q2 out2 a,
      pm_process_body (idle_state OPMODE_SLAVE) { pid := 0, tx_attempt := 0 }
          (delivered (valid_frame 7 PACKET_TYPE_DATA) :: [])
        = some (q1, { pid := 0, tx_attempt := 0 }, out1, []) ∧
      pm_process_body (idle_state OPMODE_SLAVE) { pid := 0, tx_attempt := 0 }
          (delivered (valid_frame 7 PACKET_TYPE_CONTROL) :: [])
        = some (q2, { pid := 0, tx_attempt := 0 }, out2, []) ∧
      q1.rx_pm_header = ⟨0, 0, 0, 0, 7, PACKET_TYPE_DATA⟩ ∧
      q2.rx_pm_header = ⟨0, 0, 0, 0, 7, PACKET_TYPE_CONTROL⟩ ∧
      q1.tx_header = q2.tx_header ∧ q1.tx_payload = q2.tx_payload ∧
      q1.tx_pm_header = q2.tx_pm_header ∧
      sent_packets out1 = [(q1.tx_header, q1.tx_payload)] ∧
      sent_packets out2 = [(q2.tx_header, q2.tx_payload)] ∧
      pm_dissemble_header q1.tx_header = some a ∧
      a.type = PACKET_TYPE_ACK ∧
      a.pid = (⟨0, 0, 0, 0, 7, PACKET_TYPE_DATA⟩ : pm_header).pid ∧
      a.pid = (⟨0, 0, 0, 0, 7, PACKET_TYPE_CONTROL⟩ : pm_header).pid :=
  slave_ack_ignores_type (idle_state OPMODE_SLAVE) { pid := 0, tx_attempt := 0 }
    (delivered (valid_frame 7 PACKET_TYPE_DATA)) (delivered (valid_frame 7 PACKET_TYPE_CONTROL))
    [] [] _ _ _ _ ⟨0, 0, 0, 0, 7, PACKET_TYPE_DATA⟩ ⟨0, 0, 0, 0, 7, PACKET_TYPE_CONTROL⟩
    (by decide) (by decide) (by decide) (by decide) rfl rfl (by decide) (by decide) (by decide)

/-! ## Guard discipline -/

theorem unguarded_replicate_read (held : List Mutex) (f : Field) (n : Nat)
    (rest : List Action) (hg : guarded held f = true) :
    unguarded held (List.replicate n (Action.read f) ++ rest) = unguarded held rest := by
  induction n with
  | zero => rfl
  | succ n ih =>
    rw [List.replicate_succ, List.cons_append, unguarded, if_pos hg]
    exact ih

theorem held_at_hw_write_replicate_read (held : List Mutex) (f : Field) (n : Nat)
    (rest : List Action) :
    held_at_hw_write held (List.replicate n (Action.read f) ++ rest)
      = held_at_hw_write held rest := by
  induction n with
  | zero => rfl
  | succ n ih =>
    rw [List.replicate_succ, List.cons_append]
    exact ih

/-- The part of a pass of `tx_process` before the gain loop: the loop test is
unguarded, the outbound slot is read under `tx_data_mutex`, and no mutex is
held afterwards. -/
theorem tx_process_start (tail : List Action) :
    unguarded []
        ([Action.read Field.radio_active,
          Action.lock Mutex.tx_data_mutex, Action.cond_wait Mutex.tx_data_mutex,
          Action.read Field.tx_header, Action.read Field.tx_payload,
          Action.unlock Mutex.tx_data_mutex] ++ tail)
      = Action.read Field.radio_active :: unguarded [] tail ∧
    held_at_hw_write []
        ([Action.read Field.radio_active,
          Action.lock Mutex.tx_data_mutex, Action.cond_wait Mutex.tx_data_mutex,
          Action.read Field.tx_header, Action.read Field.tx_payload,
          Action.unlock Mutex.tx_data_mutex] ++ tail)
      = held_at_hw_write [] tail :=
  ⟨rfl, rfl⟩

theorem tx_process_unguarded :
    unguarded [] tx_process_actions = [Action.read Field.radio_active] := by
  rw [tx_process_actions, List.append_assoc, (tx_process_start _).1,
    unguarded_replicate_read [] Field.tx_gain _ _ rfl]
  rfl

theorem tx_process_hw_write :
    held_at_hw_write [] tx_process_actions = [[]] := by
  rw [tx_process_actions, List.append_assoc, (tx_process_start _).2,
    held_at_hw_write_replicate_read]
  rfl

/-- C11 fails on the code. `callback` updates and prints the two counters
with no mutex held, whatever the validity flags are; `pm_wait_for_ack_packet`
reads the decoded inbound header after it has released `rx_data_mutex`; the
slave pass of `pm_process` reads it once more after the release; the loop
tests of `pm_process` and `tx_process` read `radio_active` with no mutex held.
The outbound slot is accessed under `tx_data_mutex` throughout, the inbound
slot is written under `rx_data_mutex`, and `tx_process` holds no mutex at the
hardware write. -/
theorem guard_discipline_broken :
    (∀ hv pv : Int, ∃ rest, unguarded [] (callback_actions hv pv)
        = Action.read Field.num_rx_packets :: Action.write Field.num_rx_packets :: rest) ∧
    unguarded [] (callback_actions 1 1)
      = [Action.read Field.num_rx_packets, Action.write Field.num_rx_packets,
         Action.read Field.num_valid_rx_packets, Action.write Field.num_valid_rx_packets,
         Action.read Field.num_valid_rx_packets, Action.read Field.num_rx_packets] ∧
    unguarded []
        (pm_wait_for_ack_packet_actions
          { idle_state OPMODE_MASTER with rx_pm_header := ⟨0, 0, 0, 0, 5, PACKET_TYPE_ACK⟩ } 5 0)
      = [Action.read Field.rx_pm_header, Action.read Field.rx_pm_header] ∧
    unguarded [] pm_process_slave_actions
      = [Action.read Field.radio_active, Action.read Field.rx_pm_header] ∧
    unguarded [] (pm_process_master_actions (idle_state OPMODE_MASTER) 5 110)
      = [Action.read Field.radio_active, Action.read Field.radio_active] ∧
    unguarded [] tx_process_actions = [Action.read Field.radio_active] ∧
    unguarded [] pm_send_data_packet_actions = [] ∧
    unguarded [] pm_send_ack_packet_actions = [] ∧
    unguarded [] ce_process_actions = [] ∧
    held_at_hw_write [] tx_process_actions = [[]] := by
  refine ⟨fun hv pv => ⟨_, rfl⟩, by decide, by decide, by decide, by decide,
    tx_process_unguarded, by decide, by decide, by decide, tx_process_hw_write⟩

end CR
